import Mathlib

/-!
Shallow embedding of the `wade::tracker` / `wade::tracker::trackable` classes
from `tracker.hpp`, together with proofs of the specification claims.

Modelling conventions:
* Trackers and trackables are identified by natural-number ids; a C++ pointer
  argument (`trackable *`) is an `Option Nat` (`none` = `nullptr`).
* The mutable heap is a `State` record: for each tracker id its
  `tracked_objects_` vector (a `List Nat` of member ids, insertion at the end),
  and for each trackable id its `tracker_` back-pointer (`Option Nat`) and its
  payload (the `tracked_type` base subobject, modelled as a `Nat`).
* The CRTP notification hooks `did_make` / `did_attach` / `did_detach`
  (invoked through `STATIC_DISPATCH`) are modelled as pure observers: each
  invocation appends an `Event` carrying what the hook could observe at the
  moment it runs: the notifying tracker's current `tracked_objects().size()`,
  the member's current `is_detached()`, and whether the member is currently in
  the notifying tracker's collection.
* A C++ `assert` that fails (and undefined behaviour such as calling a method
  on a dangling pointer) is modelled by `Option`: `none` = the operation
  aborts.  Fallible operations therefore return `Option`.
-/

namespace Tracker

/-- Which notification hook fired: `did_make`, `did_attach` or `did_detach`. -/
inductive Hook where
  | didMake : Hook
  | didAttach : Hook
  | didDetach : Hook
deriving DecidableEq

/-- One notification-hook invocation, with the observations available to the
hook body at the moment the `STATIC_DISPATCH` call runs. -/
structure Event where
  hook : Hook
  trackerId : Nat
  memberId : Nat
  /-- the notifying tracker's `tracked_objects().size()` at hook time -/
  obsSize : Nat
  /-- the member's `is_detached()` at hook time -/
  obsDetached : Bool
  /-- whether the member is in the notifying tracker's collection at hook time -/
  obsInColl : Bool
deriving DecidableEq

/-- Global state: the live objects, every tracker's `tracked_objects_`,
every trackable's `tracker_` back-pointer and payload, the trace of hook
invocations, and fresh-id counters for the two kinds of objects. -/
structure State where
  trackers : List Nat
  trackables : List Nat
  coll : Nat → List Nat
  backref : Nat → Option Nat
  payload : Nat → Nat
  events : List Event
  nextTracker : Nat
  nextTrackable : Nat

/-- The empty initial heap: no objects, no events. -/
def initState : State :=
  { trackers := [], trackables := [], coll := fun _ => [],
    backref := fun _ => none, payload := fun _ => 0,
    events := [], nextTracker := 0, nextTrackable := 0 }

/-- Pointwise update of a tracker's collection. -/
def setColl (f : Nat → List Nat) (t : Nat) (v : List Nat) : Nat → List Nat :=
  fun u => if u = t then v else f u

/-- Pointwise update of a trackable's back-pointer. -/
def setBackref (f : Nat → Option Nat) (x : Nat) (v : Option Nat) : Nat → Option Nat :=
  fun y => if y = x then v else f y

/-- Pointwise update of a trackable's payload. -/
def setPayload (f : Nat → Nat) (x : Nat) (v : Nat) : Nat → Nat :=
  fun y => if y = x then v else f y

/-- Invoke a notification hook (`STATIC_DISPATCH(Derived, did_*, *a_trackable)`):
append an `Event` recording what the hook body can observe in the current
state. -/
def fireHook (s : State) (h : Hook) (t x : Nat) : State :=
  { s with events := s.events ++
      [{ hook := h, trackerId := t, memberId := x,
         obsSize := (s.coll t).length,
         obsDetached := (s.backref x).isNone,
         obsInColl := decide (x ∈ s.coll t) }] }

/-- The member query `tracker::is_attached(trackable const *)`
(`a_trackable and a_trackable->tracker_ == this`). -/
def is_attached (s : State) (t : Nat) (p : Option Nat) : Bool :=
  match p with
  | none => false
  | some x => decide (s.backref x = some t)

/-- The member query `tracker::is_detached(trackable const *)`. -/
def is_detached (s : State) (t : Nat) (p : Option Nat) : Bool :=
  ! is_attached s t p

/-- Internal `tracker::connect`: `assert(a_trackable and a_trackable->tracker_ != this)`,
set the back-pointer, insert at the end of `tracked_objects_`. -/
def connect (t x : Nat) (s : State) : Option State :=
  if s.backref x = some t then none
  else some { s with
    backref := setBackref s.backref x (some t),
    coll := setColl s.coll t (s.coll t ++ [x]) }

/-- Internal `tracker::disconnect`: `assert(a_trackable and a_trackable->tracker_ == this)`,
locate the member with `wade::find` (first occurrence), `assert` it was found,
erase it, clear the back-pointer. -/
def disconnect (t x : Nat) (s : State) : Option State :=
  if s.backref x = some t ∧ x ∈ s.coll t then
    some { s with
      coll := setColl s.coll t ((s.coll t).erase x),
      backref := setBackref s.backref x none }
  else none

/-- Public `tracker::detach(trackable *)`: no-op returning `false` when the
argument is detached (which also covers `nullptr`), otherwise disconnect and
fire `did_detach`. -/
def detach (t : Nat) (p : Option Nat) (s : State) : Option (Bool × State) :=
  if is_detached s t p then some (false, s)
  else
    match p with
    | none => none
    | some x =>
      match disconnect t x s with
      | none => none
      | some s1 => some (true, fireHook s1 .didDetach t x)

/-- Member `trackable::detach()`: if attached, call the tracker's `detach`,
`assert` it succeeded and that the object is now detached; otherwise return
`false`. -/
def trackable_detach (x : Nat) (s : State) : Option (Bool × State) :=
  match s.backref x with
  | none => some (false, s)
  | some t =>
    match detach t (some x) s with
    | none => none
    | some (success, s1) =>
      if success ∧ s1.backref x = none then some (success, s1) else none

/-- Public `tracker::attach(trackable *)`: no-op returning `false` when the
argument is null or already attached to this tracker; otherwise detach it from
any other tracker, connect it here and fire `did_attach`. -/
def attach (t : Nat) (p : Option Nat) (s : State) : Option (Bool × State) :=
  match p with
  | none => some (false, s)
  | some x =>
    if s.backref x = some t then some (false, s)
    else
      match trackable_detach x s with
      | none => none
      | some (_, s1) =>
        match connect t x s1 with
        | none => none
        | some s2 => some (true, fireHook s2 .didAttach t x)

/-- Allocate a fresh trackable whose payload base was constructed with value
`v` and whose `tracker_` member is `nullptr` (the body of the forwarding /
default constructor of `trackable`). -/
def freshTrackableState (v : Nat) (s : State) : State :=
  { s with
    trackables := s.trackables ++ [s.nextTrackable],
    backref := setBackref s.backref s.nextTrackable none,
    payload := setPayload s.payload s.nextTrackable v,
    nextTrackable := s.nextTrackable + 1 }

/-- Public `tracker::make`: construct a new trackable (payload `v`), `connect`
it, fire `did_make`, and hand the new object to the caller. -/
def make (t : Nat) (v : Nat) (s : State) : Option (Nat × State) :=
  let x := s.nextTrackable
  let s0 := freshTrackableState v s
  match connect t x s0 with
  | none => none
  | some s1 => some (x, fireHook s1 .didMake t x)

/-- Loop body of `tracker::detach_all`: for each member of the (unchanging)
collection, set its `tracker_` to `nullptr` and then fire `did_detach`. -/
def detachAllLoop (t : Nat) (xs : List Nat) (s : State) : State :=
  match xs with
  | [] => s
  | x :: rest =>
    detachAllLoop t rest
      (fireHook { s with backref := setBackref s.backref x none } .didDetach t x)

/-- Public `tracker::detach_all`: run the loop over the current collection,
then `tracked_objects_.clear()` in one step. -/
def detach_all (t : Nat) (s : State) : State :=
  let s1 := detachAllLoop t (s.coll t) s
  { s1 with coll := setColl s1.coll t [] }

/-- Direct value construction of a `trackable` (the documented behaviour of
the forwarding constructor, and the behaviour of the default constructor):
the payload base is constructed from the forwarded arguments and the object
starts detached.  Returns the new id. -/
def newTrackable (v : Nat) (s : State) : Nat × State :=
  (s.nextTrackable, freshTrackableState v s)

/-- Copy constructor `trackable(trackable const & rhs)`: copy the payload,
initialize `tracker_` to `nullptr`, then if `rhs` is attached call
`rhs.tracker_->attach(this)`. -/
def copyTrackable (rhs : Nat) (s : State) : Option (Nat × State) :=
  let x := s.nextTrackable
  let s0 := freshTrackableState (s.payload rhs) s
  match s.backref rhs with
  | none => some (x, s0)
  | some t =>
    match attach t (some x) s0 with
    | none => none
    | some (_, s1) => some (x, s1)

/-- Copy assignment `trackable::operator=(trackable const & rhs)` with `this`
= `x` and `rhs` = `y`: guarded against self-assignment; copy the payload; if
the trackers differ, `detach()` this and, when `rhs` is attached, attach this
to `rhs`'s tracker. -/
def copyAssignTrackable (x y : Nat) (s : State) : Option State :=
  if x = y then some s
  else
    let s0 := { s with payload := setPayload s.payload x (s.payload y) }
    if s0.backref x = s0.backref y then some s0
    else
      match trackable_detach x s0 with
      | none => none
      | some (_, s1) =>
        match s1.backref y with
        | none => some s1
        | some t =>
          match attach t (some x) s1 with
          | none => none
          | some (_, s2) => some s2

/-- Move constructor `trackable(trackable && rhs)`: move the payload,
initialize `tracker_` to `nullptr`, save `rhs.tracker_`, `rhs.detach()`, then
attach this to the saved tracker if there was one. -/
def moveTrackable (rhs : Nat) (s : State) : Option (Nat × State) :=
  let x := s.nextTrackable
  let s0 := freshTrackableState (s.payload rhs) s
  let savedTracker := s.backref rhs
  match trackable_detach rhs s0 with
  | none => none
  | some (_, s1) =>
    match savedTracker with
    | none => some (x, s1)
    | some t =>
      match attach t (some x) s1 with
      | none => none
      | some (_, s2) => some (x, s2)

/-- Move assignment `trackable::operator=(trackable && rhs)` with `this` = `x`
and `rhs` = `y`: `assert(this != &rhs)`; move the payload; `detach()` this;
save `rhs.tracker_`; `rhs.detach()`; attach this to the saved tracker if
there was one. -/
def moveAssignTrackable (x y : Nat) (s : State) : Option State :=
  if x = y then none
  else
    let s0 := { s with payload := setPayload s.payload x (s.payload y) }
    match trackable_detach x s0 with
    | none => none
    | some (_, s1) =>
      let savedTracker := s1.backref y
      match trackable_detach y s1 with
      | none => none
      | some (_, s2) =>
        match savedTracker with
        | none => some s2
        | some t =>
          match attach t (some x) s2 with
          | none => none
          | some (_, s3) => some s3

/-- Destructor `trackable::~trackable`: `detach()`, then the object is gone. -/
def destroyTrackable (x : Nat) (s : State) : Option State :=
  match trackable_detach x s with
  | none => none
  | some (_, s1) => some { s1 with trackables := s1.trackables.erase x }

/-- Default construction of a tracker: empty `tracked_objects_`.  Returns the
new id. -/
def newTracker (s : State) : Nat × State :=
  (s.nextTracker,
   { s with trackers := s.trackers ++ [s.nextTracker],
            coll := setColl s.coll s.nextTracker [],
            nextTracker := s.nextTracker + 1 })

/-- Transfer `rhs`'s collection to tracker `t` and rewire every transferred
member's `tracker_` to `t`, leaving `rhs`'s collection empty (the common core
of the tracker move constructor and move assignment). -/
def transferState (t rhs : Nat) (s : State) : State :=
  let moved := s.coll rhs
  { s with
    coll := setColl (setColl s.coll rhs []) t moved,
    backref := fun y => if y ∈ moved then some t else s.backref y }

/-- Move constructor `tracker(tracker && rhs)`: a fresh tracker steals `rhs`'s
collection and rewires every member's back-pointer to itself; no hook fires. -/
def moveTracker (rhs : Nat) (s : State) : Nat × State :=
  let t := s.nextTracker
  let s0 := { s with trackers := s.trackers ++ [t],
                     coll := setColl s.coll t [],
                     nextTracker := t + 1 }
  (t, transferState t rhs s0)

/-- Move assignment `tracker::operator=(tracker && rhs)` with `this` = `t`:
`assert(this != &rhs)`; `detach_all()` the old members; steal `rhs`'s
collection and rewire the transferred members' back-pointers. -/
def moveAssignTracker (t rhs : Nat) (s : State) : Option State :=
  if t = rhs then none
  else some (transferState t rhs (detach_all t s))

/-- Destructor `tracker::~tracker`: `detach_all()`, then the tracker is gone. -/
def destroyTracker (t : Nat) (s : State) : State :=
  let s1 := detach_all t s
  { s1 with trackers := s1.trackers.erase t }

/-- Whether an event is an invocation of hook `h` by tracker `t` for member `x`. -/
def isHookEvent (h : Hook) (t x : Nat) (e : Event) : Bool :=
  decide (e.hook = h ∧ e.trackerId = t ∧ e.memberId = x)

/-- How many times hook `h` has fired on tracker `t` for member `x` in trace `l`. -/
def hookCount (l : List Event) (h : Hook) (t x : Nat) : Nat :=
  (l.filter (isHookEvent h t x)).length

/-- The event appended by `fireHook s h t x`. -/
def mkEvent (s : State) (h : Hook) (t x : Nat) : Event :=
  { hook := h, trackerId := t, memberId := x,
    obsSize := (s.coll t).length,
    obsDetached := (s.backref x).isNone,
    obsInColl := decide (x ∈ s.coll t) }

/-- The state after a successful `tracker::detach` of member `x` from tracker
`t` (disconnect, then `did_detach`). -/
def detachState (t x : Nat) (s : State) : State :=
  fireHook { s with coll := setColl s.coll t ((s.coll t).erase x),
                    backref := setBackref s.backref x none } .didDetach t x

/-- The state right after `tracker::connect` of member `x` into tracker `t`. -/
def connectState (t x : Nat) (s : State) : State :=
  { s with backref := setBackref s.backref x (some t),
           coll := setColl s.coll t (s.coll t ++ [x]) }

section Simp

theorem setColl_same (f : Nat → List Nat) (t : Nat) (v : List Nat) :
    setColl f t v t = v := by simp [setColl]

theorem setColl_other (f : Nat → List Nat) (t : Nat) (v : List Nat) {u : Nat}
    (h : u ≠ t) : setColl f t v u = f u := by simp [setColl, h]

theorem setBackref_same (f : Nat → Option Nat) (x : Nat) (v : Option Nat) :
    setBackref f x v x = v := by simp [setBackref]

theorem setBackref_other (f : Nat → Option Nat) (x : Nat) (v : Option Nat) {y : Nat}
    (h : y ≠ x) : setBackref f x v y = f y := by simp [setBackref, h]

theorem fireHook_events (s : State) (h : Hook) (t x : Nat) :
    (fireHook s h t x).events = s.events ++ [mkEvent s h t x] := rfl

theorem fireHook_coll (s : State) (h : Hook) (t x : Nat) :
    (fireHook s h t x).coll = s.coll := rfl

theorem fireHook_backref (s : State) (h : Hook) (t x : Nat) :
    (fireHook s h t x).backref = s.backref := rfl

theorem fireHook_trackers (s : State) (h : Hook) (t x : Nat) :
    (fireHook s h t x).trackers = s.trackers := rfl

theorem fireHook_trackables (s : State) (h : Hook) (t x : Nat) :
    (fireHook s h t x).trackables = s.trackables := rfl

end Simp

section Chars

variable {s : State} {t u x y : Nat}

/-- `is_attached` on a null pointer is `false`; `is_detached` is `true`. -/
theorem is_attached_null (s : State) (t : Nat) : is_attached s t none = false := rfl

theorem is_detached_null (s : State) (t : Nat) : is_detached s t none = true := rfl

theorem is_attached_iff (s : State) (t x : Nat) :
    is_attached s t (some x) = true ↔ s.backref x = some t := by
  simp [is_attached]

theorem disconnect_eq (h1 : s.backref x = some t) (h2 : x ∈ s.coll t) :
    disconnect t x s =
      some { s with coll := setColl s.coll t ((s.coll t).erase x),
                    backref := setBackref s.backref x none } := by
  simp [disconnect, h1, h2]

theorem detach_null (s : State) (t : Nat) : detach t none s = some (false, s) := rfl

theorem detach_noop (h : ¬ s.backref x = some t) :
    detach t (some x) s = some (false, s) := by
  simp [detach, is_detached, is_attached, h]

theorem detach_hit (h1 : s.backref x = some t) (h2 : x ∈ s.coll t) :
    detach t (some x) s = some (true, detachState t x s) := by
  simp [detach, is_detached, is_attached, h1, disconnect_eq h1 h2, detachState]

theorem trackable_detach_noop (h : s.backref x = none) :
    trackable_detach x s = some (false, s) := by
  simp [trackable_detach, h]

theorem trackable_detach_hit (h1 : s.backref x = some t) (h2 : x ∈ s.coll t) :
    trackable_detach x s = some (true, detachState t x s) := by
  simp [trackable_detach, h1, detach_hit h1 h2, detachState, fireHook,
        setBackref_same]

theorem attach_null (s : State) (t : Nat) : attach t none s = some (false, s) := rfl

theorem attach_self (h : s.backref x = some t) :
    attach t (some x) s = some (false, s) := by
  simp [attach, h]

theorem attach_detached (h : s.backref x = none) :
    attach t (some x) s = some (true, fireHook (connectState t x s) .didAttach t x) := by
  have hne : ¬ s.backref x = some t := by simp [h]
  simp [attach, hne, trackable_detach_noop h, connect, connectState]

theorem attach_other (h1 : s.backref x = some u) (hne : u ≠ t) (h2 : x ∈ s.coll u) :
    attach t (some x) s =
      some (true, fireHook (connectState t x (detachState u x s)) .didAttach t x) := by
  have hne' : ¬ s.backref x = some t := by simp [h1, hne]
  have hb : (detachState u x s).backref x = none := by
    simp [detachState, fireHook, setBackref_same]
  have hb' : ¬ (detachState u x s).backref x = some t := by simp [hb]
  simp [attach, hne', trackable_detach_hit h1 h2, connect, hb', connectState]

theorem make_eq (s : State) (t v : Nat) :
    make t v s = some (s.nextTrackable,
      fireHook (connectState t s.nextTrackable (freshTrackableState v s))
        .didMake t s.nextTrackable) := by
  have hb : (freshTrackableState v s).backref s.nextTrackable = none := by
    simp [freshTrackableState, setBackref_same]
  have hb' : ¬ (freshTrackableState v s).backref s.nextTrackable = some t := by
    simp [hb]
  simp [make, connect, hb', connectState]

end Chars

section DetachAll

/-- Effect of the `detach_all` loop: the collections never change, the
back-pointers of all listed members are cleared, and one `did_detach` event is
appended per listed member, each observing the (unchanged) collection. -/
theorem detachAllLoop_spec (t : Nat) (xs : List Nat) (s : State) :
    (detachAllLoop t xs s).coll = s.coll
    ∧ (detachAllLoop t xs s).backref = (fun y => if y ∈ xs then none else s.backref y)
    ∧ (detachAllLoop t xs s).events = s.events ++
        xs.map (fun x => Event.mk .didDetach t x (s.coll t).length true (decide (x ∈ s.coll t)))
    ∧ (detachAllLoop t xs s).trackers = s.trackers
    ∧ (detachAllLoop t xs s).trackables = s.trackables
    ∧ (detachAllLoop t xs s).payload = s.payload
    ∧ (detachAllLoop t xs s).nextTracker = s.nextTracker
    ∧ (detachAllLoop t xs s).nextTrackable = s.nextTrackable := by
  induction xs generalizing s with
  | nil => simp [detachAllLoop]
  | cons x rest ih =>
    obtain ⟨hc, hb, he, htr, htb, hp, hn1, hn2⟩ :=
      ih (fireHook { s with backref := setBackref s.backref x none } .didDetach t x)
    simp only [detachAllLoop]
    refine ⟨?_, ?_, ?_, ?_, ?_, ?_, ?_, ?_⟩
    · rw [hc]; rfl
    · rw [hb]
      funext z
      by_cases hzx : z = x
      · subst hzx
        by_cases hzr : z ∈ rest <;>
          simp [hzr, fireHook, setBackref_same]
      · by_cases hzr : z ∈ rest
        · simp [hzr, hzx]
        · simp [hzr, hzx, fireHook, setBackref_other _ _ _ hzx]
    · rw [he]
      simp [fireHook, setBackref_same, List.append_assoc]
    · rw [htr]; rfl
    · rw [htb]; rfl
    · rw [hp]; rfl
    · rw [hn1]; rfl
    · rw [hn2]; rfl

theorem detach_all_coll (t : Nat) (s : State) :
    (detach_all t s).coll = setColl s.coll t [] := by
  have h := (detachAllLoop_spec t (s.coll t) s).1
  simp [detach_all, h]

theorem detach_all_backref (t : Nat) (s : State) :
    (detach_all t s).backref = (fun y => if y ∈ s.coll t then none else s.backref y) := by
  have h := (detachAllLoop_spec t (s.coll t) s).2.1
  simp [detach_all, h]

theorem detach_all_events (t : Nat) (s : State) :
    (detach_all t s).events = s.events ++
      (s.coll t).map
        (fun x => Event.mk .didDetach t x (s.coll t).length true (decide (x ∈ s.coll t))) := by
  have h := (detachAllLoop_spec t (s.coll t) s).2.2.1
  simp [detach_all, h]

theorem detach_all_trackers (t : Nat) (s : State) :
    (detach_all t s).trackers = s.trackers := by
  have h := (detachAllLoop_spec t (s.coll t) s).2.2.2.1
  simp [detach_all, h]

theorem detach_all_trackables (t : Nat) (s : State) :
    (detach_all t s).trackables = s.trackables := by
  have h := (detachAllLoop_spec t (s.coll t) s).2.2.2.2.1
  simp [detach_all, h]

end DetachAll

section HookCounts

theorem hookCount_append (l l2 : List Event) (h : Hook) (t x : Nat) :
    hookCount (l ++ l2) h t x = hookCount l h t x + hookCount l2 h t x := by
  simp [hookCount, List.filter_append]

theorem hookCount_nil (h : Hook) (t x : Nat) : hookCount [] h t x = 0 := rfl

end HookCounts

/-! Concrete demonstration states used by the witness theorems. -/

/-- Demo heap: trackers `0` (members `[1, 2]`) and `1` (empty); trackables
`1`, `2` attached to tracker `0` and trackable `3` detached. -/
def sDemo : State :=
  { trackers := [0, 1], trackables := [1, 2, 3],
    coll := fun t => if t = 0 then [1, 2] else [],
    backref := fun x => if x = 1 ∨ x = 2 then some 0 else none,
    payload := fun _ => 7, events := [],
    nextTracker := 2, nextTrackable := 4 }

/-! Claim theorems. -/

/-- C5: immediately after `make(args)` returns, the new value is attached,
attached specifically to the making tracker (it is in its collection), its
payload was constructed from the forwarded arguments, exactly one `did_make`
notification has fired for it and no `did_attach` or `did_detach` fired (the
whole trace grew by that single `did_make` event); the object was handed to
the caller (it is live and the tracker's collection merely references it). -/
theorem claim_C5_make (s : State) (t v : Nat) :
    let x := s.nextTrackable
    let s' := fireHook (connectState t x (freshTrackableState v s)) .didMake t x
    make t v s = some (x, s')
    ∧ is_attached s' t (some x) = true
    ∧ s'.backref x = some t
    ∧ x ∈ s'.coll t
    ∧ s'.payload x = v
    ∧ s'.trackables = s.trackables ++ [x]
    ∧ s'.events = s.events ++ [Event.mk .didMake t x ((s.coll t).length + 1) false true]
    ∧ hookCount s'.events .didMake t x = hookCount s.events .didMake t x + 1
    ∧ hookCount s'.events .didAttach t x = hookCount s.events .didAttach t x
    ∧ hookCount s'.events .didDetach t x = hookCount s.events .didDetach t x
    ∧ s'.events.length = s.events.length + 1 := by
  intro x s'
  have hmk := make_eq s t v
  refine ⟨hmk, ?_, ?_, ?_, ?_, ?_, ?_, ?_, ?_, ?_, ?_⟩
  · simp [s', is_attached, fireHook, connectState, setBackref_same]
  · simp [s', fireHook, connectState, setBackref_same]
  · simp [s', fireHook, connectState, setColl_same]
  · simp [s', fireHook, connectState, freshTrackableState, setPayload, x]
  · simp [s', fireHook, connectState, freshTrackableState, x]
  · simp [s', fireHook, mkEvent, connectState, freshTrackableState,
          setColl_same, setBackref_same]
  · simp [s', fireHook, mkEvent, hookCount, isHookEvent, List.filter_append,
          connectState, freshTrackableState, setBackref_same, setColl_same]
  · simp [s', fireHook, mkEvent, hookCount, isHookEvent, List.filter_append,
          connectState, freshTrackableState, setBackref_same, setColl_same]
  · simp [s', fireHook, mkEvent, hookCount, isHookEvent, List.filter_append,
          connectState, freshTrackableState, setBackref_same, setColl_same]
  · simp [s', fireHook, connectState, freshTrackableState]

/-- C3: `attach` returns `false` and changes nothing on a null pointer or an
already-attached-here member; null is always reported detached; attaching a
member currently attached to a different tracker `u` first fires `u`'s
`did_detach` once (removing it from `u`'s collection), then fires this
tracker's `did_attach` once, returns `true`, and leaves it attached to this
tracker only; no `did_make` ever fires. -/
theorem claim_C3_attach (s : State) (t u x : Nat) :
    (attach t none s = some (false, s)
     ∧ is_attached s t none = false
     ∧ is_detached s t none = true)
    ∧ (s.backref x = some t → attach t (some x) s = some (false, s))
    ∧ (s.backref x = some u → u ≠ t → x ∈ s.coll u → (s.coll u).Nodup →
       let s' := fireHook (connectState t x (detachState u x s)) .didAttach t x
       attach t (some x) s = some (true, s')
       ∧ s'.backref x = some t
       ∧ is_attached s' t (some x) = true
       ∧ is_attached s' u (some x) = false
       ∧ x ∈ s'.coll t
       ∧ x ∉ s'.coll u
       ∧ s'.events = s.events ++
           [Event.mk .didDetach u x ((s.coll u).length - 1) true false,
            Event.mk .didAttach t x ((s.coll t).length + 1) false true]
       ∧ hookCount s'.events .didDetach u x = hookCount s.events .didDetach u x + 1
       ∧ hookCount s'.events .didAttach t x = hookCount s.events .didAttach t x + 1
       ∧ (∀ t' x', hookCount s'.events .didMake t' x' = hookCount s.events .didMake t' x')) := by
  refine ⟨⟨attach_null s t, rfl, rfl⟩, fun h => attach_self h, ?_⟩
  intro h1 hne h2 hnd s'
  have hut : u ≠ t := hne
  have key := attach_other h1 hne h2
  have hcollu : (detachState u x s).coll u = (s.coll u).erase x := by
    simp [detachState, fireHook, setColl_same]
  have hcollt : (detachState u x s).coll t = s.coll t := by
    simp [detachState, fireHook, setColl_other _ _ _ (Ne.symm hut)]
  have hbx : (detachState u x s).backref x = none := by
    simp [detachState, fireHook, setBackref_same]
  have hlen : ((s.coll u).erase x).length = (s.coll u).length - 1 :=
    List.length_erase_of_mem h2
  have hxer : x ∉ (s.coll u).erase x := hnd.not_mem_erase
  refine ⟨key, ?_, ?_, ?_, ?_, ?_, ?_, ?_, ?_, ?_⟩
  · simp [s', fireHook, connectState, setBackref_same]
  · simp [s', is_attached, fireHook, connectState, setBackref_same]
  · have htu : (t : Nat) ≠ u := Ne.symm hut
    simp [s', is_attached, fireHook, connectState, setBackref_same, htu]
  · simp [s', fireHook, connectState, setColl_same, hcollt]
  · simp only [s', fireHook, connectState]
    simp only [setColl_other _ _ _ hut]
    simpa [hcollu] using hxer
  · simp [s', fireHook, mkEvent, connectState, detachState,
          setColl_same, setColl_other _ _ _ hut, setColl_other _ _ _ (Ne.symm hut),
          setBackref_same, hlen, hxer]
  · simp [s', fireHook, mkEvent, hookCount, isHookEvent, List.filter_append,
          connectState, detachState, setBackref_same, hne, Ne.symm hne]
  · simp [s', fireHook, mkEvent, hookCount, isHookEvent, List.filter_append,
          connectState, detachState, setBackref_same]
  · intro t' x'
    simp [s', fireHook, mkEvent, hookCount, isHookEvent, List.filter_append,
          connectState, detachState]

/-- Witness for C3 on the demo heap: member `1` is attached to tracker `0`;
attaching it to tracker `1` leaves it with back-reference `1`. -/
theorem claim_C3_attach_witness :
    sDemo.backref 1 = some 0 ∧ (0 : Nat) ≠ 1 ∧ 1 ∈ sDemo.coll 0 ∧ (sDemo.coll 0).Nodup
    ∧ (fireHook (connectState 1 1 (detachState 0 1 sDemo)) .didAttach 1 1).backref 1 = some 1 :=
  ⟨by decide, by decide, by decide, by decide,
   ((claim_C3_attach sDemo 1 0 1).2.2 (by decide) (by decide) (by decide) (by decide)).2.1⟩

/-- C4: `detach` returns `false` with no state change and no notification
exactly when the pointer is null or not attached to this tracker; otherwise it
removes the member from the collection (size decreases by one), clears its
back-reference, fires `did_detach` exactly once, returns `true` and does not
destroy the member; destroying a trackable while attached fires exactly one
`did_detach` on its tracker and shrinks that tracker's collection by one. -/
theorem claim_C4_detach (s : State) (t x : Nat) :
    (detach t none s = some (false, s))
    ∧ ((detach t (some x) s = some (false, s)) ↔ ¬ s.backref x = some t)
    ∧ (s.backref x = some t → x ∈ s.coll t →
       let s' := detachState t x s
       detach t (some x) s = some (true, s')
       ∧ (s'.coll t).length + 1 = (s.coll t).length
       ∧ s'.backref x = none
       ∧ is_detached s' t (some x) = true
       ∧ hookCount s'.events .didDetach t x = hookCount s.events .didDetach t x + 1
       ∧ hookCount s'.events .didAttach t x = hookCount s.events .didAttach t x
       ∧ hookCount s'.events .didMake t x = hookCount s.events .didMake t x
       ∧ s'.events.length = s.events.length + 1
       ∧ s'.trackables = s.trackables)
    ∧ (s.backref x = some t → x ∈ s.coll t →
       destroyTrackable x s =
         some { detachState t x s with trackables := (detachState t x s).trackables.erase x }
       ∧ ((detachState t x s).coll t).length + 1 = (s.coll t).length
       ∧ hookCount (detachState t x s).events .didDetach t x
           = hookCount s.events .didDetach t x + 1) := by
  have hlen : x ∈ s.coll t → ((s.coll t).erase x).length + 1 = (s.coll t).length := by
    intro h2
    have := List.length_erase_of_mem h2
    have hpos : 0 < (s.coll t).length := List.length_pos.mpr (List.ne_nil_of_mem h2)
    omega
  refine ⟨detach_null s t, ?_, ?_, ?_⟩
  · constructor
    · intro heq hatt
      by_cases h2 : x ∈ s.coll t
      · rw [detach_hit hatt h2] at heq
        simp only [Option.some.injEq, Prod.mk.injEq] at heq
        exact absurd heq.1 (by simp)
      · rw [detach, if_neg (by simp [is_detached, is_attached, hatt]),
            disconnect, if_neg (by simp [h2])] at heq
        exact Option.noConfusion heq
    · intro h; exact detach_noop h
  · intro h1 h2 s'
    refine ⟨detach_hit h1 h2, ?_, ?_, ?_, ?_, ?_, ?_, ?_, ?_⟩
    · simpa [s', detachState, fireHook, setColl_same] using hlen h2
    · simp [s', detachState, fireHook, setBackref_same]
    · simp [s', is_detached, is_attached, detachState, fireHook, setBackref_same]
    · simp [s', detachState, fireHook, mkEvent, hookCount, isHookEvent, List.filter_append]
    · simp [s', detachState, fireHook, mkEvent, hookCount, isHookEvent, List.filter_append]
    · simp [s', detachState, fireHook, mkEvent, hookCount, isHookEvent, List.filter_append]
    · simp [s', detachState, fireHook]
    · simp [s', detachState, fireHook]
  · intro h1 h2
    refine ⟨?_, ?_, ?_⟩
    · simp [destroyTrackable, trackable_detach_hit h1 h2]
    · simpa [detachState, fireHook, setColl_same] using hlen h2
    · simp [detachState, fireHook, mkEvent, hookCount, isHookEvent, List.filter_append]

theorem hookCount_cons (e : Event) (l : List Event) (h : Hook) (t x : Nat) :
    hookCount (e :: l) h t x
      = (if isHookEvent h t x e then 1 else 0) + hookCount l h t x := by
  by_cases hc : isHookEvent h t x e = true
  · simp [hookCount, List.filter_cons, hc, Nat.add_comm]
  · simp [hookCount, List.filter_cons, hc]

theorem hookCount_map_not_mem (t x n : Nat) (q : Nat → Bool) (l : List Nat)
    (hx : x ∉ l) :
    hookCount (l.map (fun y => Event.mk .didDetach t y n true (q y))) .didDetach t x = 0 := by
  induction l with
  | nil => rfl
  | cons a as ih =>
    have hax : ¬ a = x := fun h => hx (by simp [h])
    have has : x ∉ as := fun h => hx (by simp [h])
    rw [List.map_cons, hookCount_cons, ih has]
    simp [isHookEvent, hax]

theorem hookCount_map_nodup (t x n : Nat) (q : Nat → Bool) (l : List Nat)
    (hnd : l.Nodup) (hx : x ∈ l) :
    hookCount (l.map (fun y => Event.mk .didDetach t y n true (q y))) .didDetach t x = 1 := by
  induction l with
  | nil => cases hx
  | cons a as ih =>
    rw [List.map_cons, hookCount_cons]
    by_cases hax : a = x
    · subst hax
      have hnotin : a ∉ as := (List.nodup_cons.mp hnd).1
      rw [hookCount_map_not_mem t a n q as hnotin]
      simp [isHookEvent]
    · have has : x ∈ as := by
        rcases List.mem_cons.mp hx with h | h
        · exact absurd h.symm hax
        · exact h
      rw [ih (List.nodup_cons.mp hnd).2 has]
      simp [isHookEvent, hax]

/-- C2: for a tracker with `n` attached members, `detach_all` (and tracker
destruction, which performs it) fires `did_detach` exactly once per member
while the collection still reports the pre-clear size `n` (every hook
invocation observes size `n`), and only afterwards is the collection cleared
in one step; no member is destroyed and every former member ends up
detached. -/
theorem claim_C2_detach_all (s : State) (t : Nat) (hnd : (s.coll t).Nodup) :
    let n := (s.coll t).length
    let s' := detach_all t s
    s'.events = s.events ++
      (s.coll t).map (fun x => Event.mk .didDetach t x n true (decide (x ∈ s.coll t)))
    ∧ (∀ x ∈ s.coll t,
         hookCount s'.events .didDetach t x = hookCount s.events .didDetach t x + 1)
    ∧ (∀ e ∈ s'.events.drop s.events.length, e.obsSize = n)
    ∧ s'.coll t = []
    ∧ s'.trackables = s.trackables
    ∧ (∀ x ∈ s.coll t, s'.backref x = none ∧ is_detached s' t (some x) = true)
    ∧ (destroyTracker t s).events = s'.events
    ∧ (destroyTracker t s).trackables = s.trackables
    ∧ (∀ x ∈ s.coll t, (destroyTracker t s).backref x = none)
    ∧ (destroyTracker t s).coll t = [] := by
  intro n s'
  have hev : s'.events = s.events ++
      (s.coll t).map (fun x => Event.mk .didDetach t x n true (decide (x ∈ s.coll t))) :=
    detach_all_events t s
  have hback : ∀ x ∈ s.coll t, s'.backref x = none := by
    intro x hx
    rw [show s'.backref = _ from detach_all_backref t s]
    simp [hx]
  refine ⟨hev, ?_, ?_, ?_, ?_, ?_, ?_, ?_, ?_, ?_⟩
  · intro x hx
    rw [hev, hookCount_append, hookCount_map_nodup t x n _ _ hnd hx]
  · intro e he
    rw [hev, List.drop_left] at he
    obtain ⟨y, _, rfl⟩ := List.mem_map.mp he
    rfl
  · rw [show s'.coll = _ from detach_all_coll t s, setColl_same]
  · exact detach_all_trackables t s
  · intro x hx
    refine ⟨hback x hx, ?_⟩
    simp [is_detached, is_attached, hback x hx]
  · rfl
  · show (detach_all t s).trackables = s.trackables
    exact detach_all_trackables t s
  · intro x hx
    show (detach_all t s).backref x = none
    exact hback x hx
  · show (detach_all t s).coll t = []
    rw [show (detach_all t s).coll = _ from detach_all_coll t s, setColl_same]

/-- Witness for C2 on the demo heap: tracker `0`'s collection `[1, 2]` has no
duplicates, and `detach_all` fires `did_detach` exactly once for member `1`. -/
theorem claim_C2_detach_all_witness :
    (sDemo.coll 0).Nodup
    ∧ hookCount (detach_all 0 sDemo).events .didDetach 0 1
        = hookCount sDemo.events .didDetach 0 1 + 1
    ∧ (detach_all 0 sDemo).coll 0 = [] :=
  ⟨by decide,
   (claim_C2_detach_all sDemo 0 (by decide)).2.1 1 (by decide),
   (claim_C2_detach_all sDemo 0 (by decide)).2.2.2.1⟩

/-- C10: inside `detach_all` every member's back-reference is cleared before
its `did_detach` hook runs: each hook invocation observes the member as
already detached while the collection still contains it and still reports the
pre-clear size — a transient violation of the one-to-one membership invariant
as seen from inside the hooks. -/
theorem claim_C10_detach_all_transient (s : State) (t : Nat) :
    let s' := detach_all t s
    (∀ e ∈ s'.events.drop s.events.length,
       e.hook = .didDetach ∧ e.trackerId = t
       ∧ e.obsDetached = true
       ∧ e.obsInColl = true
       ∧ e.obsSize = (s.coll t).length
       ∧ e.memberId ∈ s.coll t)
    ∧ s'.coll t = [] := by
  intro s'
  have hev := detach_all_events t s
  constructor
  · intro e he
    rw [show s'.events = _ from hev, List.drop_left] at he
    obtain ⟨y, hy, rfl⟩ := List.mem_map.mp he
    refine ⟨rfl, rfl, rfl, ?_, rfl, hy⟩
    simp [hy]
  · rw [show s'.coll = _ from detach_all_coll t s, setColl_same]

/-- Witness for C10 on the demo heap: the first hook fired by `detach_all` on
tracker `0` observes member `1` as detached while the collection still holds
both members. -/
theorem claim_C10_witness :
    Event.mk .didDetach 0 1 2 true true ∈ (detach_all 0 sDemo).events.drop sDemo.events.length
    ∧ (Event.mk .didDetach 0 1 2 true true).obsDetached = true
    ∧ (Event.mk .didDetach 0 1 2 true true).obsInColl = true
    ∧ (Event.mk .didDetach 0 1 2 true true).obsSize = (sDemo.coll 0).length :=
  ⟨by decide,
   ((claim_C10_detach_all_transient sDemo 0).1 _ (by decide)).2.2.1,
   ((claim_C10_detach_all_transient sDemo 0).1 _ (by decide)).2.2.2.1,
   ((claim_C10_detach_all_transient sDemo 0).1 _ (by decide)).2.2.2.2.1⟩

/-! Characterizations of the trackable move / copy special member functions. -/

/-- The state produced by detaching `y` from tracker `t` and then attaching
`x` (currently detached) to `t` — the tail shared by the trackable move
constructor and move assignment. -/
def moveResult (t y x : Nat) (s : State) : State :=
  fireHook (connectState t x (detachState t y s)) .didAttach t x

theorem length_erase_append (y x : Nat) (l : List Nat) (hy : y ∈ l) :
    ((l.erase y) ++ [x]).length = l.length := by
  have h := List.length_erase_of_mem hy
  have hpos : 0 < l.length := List.length_pos.mpr (List.ne_nil_of_mem hy)
  simp only [List.length_append, h, List.length_singleton]
  omega

theorem moveResult_backref_new (t y x : Nat) (s : State) :
    (moveResult t y x s).backref x = some t := by
  simp [moveResult, fireHook, connectState, setBackref_same]

theorem moveResult_backref_old (t y x : Nat) (s : State) (hxy : x ≠ y) :
    (moveResult t y x s).backref y = none := by
  simp [moveResult, fireHook, connectState, detachState,
        setBackref_other _ _ _ (Ne.symm hxy), setBackref_same]

theorem moveResult_coll (t y x : Nat) (s : State) :
    (moveResult t y x s).coll t = (s.coll t).erase y ++ [x] := by
  simp [moveResult, fireHook, connectState, detachState, setColl_same]

theorem moveResult_coll_other (t y x : Nat) (s : State) {w : Nat} (hw : w ≠ t) :
    (moveResult t y x s).coll w = s.coll w := by
  simp [moveResult, fireHook, connectState, detachState, setColl_other _ _ _ hw]

theorem moveResult_events (t y x : Nat) (s : State) :
    (moveResult t y x s).events = s.events ++
      [Event.mk .didDetach t y ((s.coll t).erase y).length true
         (decide (y ∈ (s.coll t).erase y)),
       Event.mk .didAttach t x ((s.coll t).erase y ++ [x]).length false true] := by
  simp [moveResult, fireHook, mkEvent, connectState, detachState,
        setColl_same, setBackref_same]

theorem moveResult_trackables (t y x : Nat) (s : State) :
    (moveResult t y x s).trackables = s.trackables := rfl

/-- Move construction from a detached source is a plain fresh construction. -/
theorem moveTrackable_detached {s : State} {y : Nat} (h : s.backref y = none) :
    moveTrackable y s = some (s.nextTrackable, freshTrackableState (s.payload y) s) := by
  have h0 : (freshTrackableState (s.payload y) s).backref y = none := by
    by_cases hy : y = s.nextTrackable
    · subst hy; simp [freshTrackableState, setBackref_same]
    · simp [freshTrackableState, setBackref_other _ _ _ hy, h]
  simp [moveTrackable, trackable_detach_noop h0, h]

/-- Move construction from a source attached to `t` detaches the source and
attaches the fresh destination to `t`. -/
theorem moveTrackable_attached {s : State} {t y : Nat} (h1 : s.backref y = some t)
    (h2 : y ∈ s.coll t) (hynt : y ≠ s.nextTrackable) :
    moveTrackable y s = some (s.nextTrackable,
      moveResult t y s.nextTrackable (freshTrackableState (s.payload y) s)) := by
  have hb0 : (freshTrackableState (s.payload y) s).backref y = some t := by
    simp [freshTrackableState, setBackref_other _ _ _ hynt, h1]
  have hm0 : y ∈ (freshTrackableState (s.payload y) s).coll t := h2
  have hdet := trackable_detach_hit hb0 hm0
  have hbx : (detachState t y (freshTrackableState (s.payload y) s)).backref
      s.nextTrackable = none := by
    simp [detachState, fireHook, freshTrackableState,
          setBackref_other _ _ _ (Ne.symm hynt), setBackref_same]
  have hatt := attach_detached (t := t) hbx
  simp [moveTrackable, hdet, h1, hatt, moveResult]

/-- Move assignment with a detached destination and a source attached to `t`. -/
theorem moveAssignTrackable_d1 {s : State} {t x y : Nat} (hxy : x ≠ y)
    (hbx : s.backref x = none) (h1 : s.backref y = some t) (h2 : y ∈ s.coll t) :
    moveAssignTrackable x y s =
      some (moveResult t y x { s with payload := setPayload s.payload x (s.payload y) }) := by
  have hbx0 : ({ s with payload := setPayload s.payload x (s.payload y) } : State).backref x
      = none := hbx
  have hby0 : ({ s with payload := setPayload s.payload x (s.payload y) } : State).backref y
      = some t := h1
  have h2y : y ∈ ({ s with payload := setPayload s.payload x (s.payload y) } : State).coll t :=
    h2
  have hdet := trackable_detach_hit hby0 h2y
  have hbx1 : (detachState t y
      { s with payload := setPayload s.payload x (s.payload y) }).backref x = none := by
    simp [detachState, fireHook, setBackref_other _ _ _ hxy, hbx]
  have hatt := attach_detached (t := t) hbx1
  simp [moveAssignTrackable, hxy, trackable_detach_noop hbx0, h1, hdet, hatt, moveResult]

/-- Move assignment with destination attached to `w ≠ t` and source attached
to `t`: the destination is detached from `w` first. -/
theorem moveAssignTrackable_d2 {s : State} {t w x y : Nat} (hxy : x ≠ y)
    (hbx : s.backref x = some w) (hwt : w ≠ t) (h2x : x ∈ s.coll w)
    (h1 : s.backref y = some t) (h2 : y ∈ s.coll t) :
    moveAssignTrackable x y s =
      some (moveResult t y x (detachState w x
        { s with payload := setPayload s.payload x (s.payload y) })) := by
  have hbx0 : ({ s with payload := setPayload s.payload x (s.payload y) } : State).backref x
      = some w := hbx
  have h2x0 : x ∈ ({ s with payload := setPayload s.payload x (s.payload y) } : State).coll w :=
    h2x
  have hdet1 := trackable_detach_hit hbx0 h2x0
  have hby1 : (detachState w x
      { s with payload := setPayload s.payload x (s.payload y) }).backref y = some t := by
    simp [detachState, fireHook, setBackref_other _ _ _ (Ne.symm hxy), h1]
  have hcy1 : y ∈ (detachState w x
      { s with payload := setPayload s.payload x (s.payload y) }).coll t := by
    simpa [detachState, fireHook, setColl_other _ _ _ (Ne.symm hwt)] using h2
  have hdet2 := trackable_detach_hit hby1 hcy1
  have hbx2 : (detachState t y (detachState w x
      { s with payload := setPayload s.payload x (s.payload y) })).backref x = none := by
    simp [detachState, fireHook, setBackref_other _ _ _ hxy, setBackref_same]
  have hatt := attach_detached (t := t) hbx2
  simp [moveAssignTrackable, hxy, hdet1, hby1, hdet2, hatt, moveResult]

/-- Move assignment between two detached trackables only moves the payload. -/
theorem moveAssignTrackable_idle {s : State} {x y : Nat} (hxy : x ≠ y)
    (hbx : s.backref x = none) (hby : s.backref y = none) :
    moveAssignTrackable x y s =
      some { s with payload := setPayload s.payload x (s.payload y) } := by
  have hbx0 : ({ s with payload := setPayload s.payload x (s.payload y) } : State).backref x
      = none := hbx
  have hby0 : ({ s with payload := setPayload s.payload x (s.payload y) } : State).backref y
      = none := hby
  simp [moveAssignTrackable, hxy, trackable_detach_noop hbx0, trackable_detach_noop hby0, hby]

/-- C6 counterexample: in the demo heap both trackables `1` and `2` are
attached to tracker `0`; move-assigning `1 = std::move(2)` — a move whose
source is attached to tracker `0` — fires tracker `0`'s `did_detach` twice
(once for the destination `1`, once for the source `2`), not exactly once,
and shrinks tracker `0`'s collection from 2 members to 1 instead of leaving
its size unchanged. -/
theorem claim_C6_counterexample :
    sDemo.backref 2 = some 0
    ∧ (sDemo.coll 0).length = 2
    ∧ (moveAssignTrackable 1 2 sDemo).map
        (fun s => (hookCount s.events .didDetach 0 1 + hookCount s.events .didDetach 0 2,
                   (s.coll 0).length, s.backref 1))
      = some (2, 1, some 0) := by decide

/-- C6 (amended): self-move-assignment fails fast; move construction from a
detached source yields a detached destination with no notification; move
construction from a source attached to `t` fires `t`'s `did_detach` once then
`t`'s `did_attach` once and leaves `t`'s size unchanged (one member replaced
by another); move assignment behaves the same way provided the destination is
not itself attached to the source's tracker — it first detaches the
destination, firing the destination's own tracker's `did_detach`, if it was
attached elsewhere. -/
theorem claim_C6_move_trackable (s : State) (t w x y : Nat) :
    moveAssignTrackable x x s = none
    ∧ (s.backref y = none →
        moveTrackable y s = some (s.nextTrackable, freshTrackableState (s.payload y) s)
        ∧ (freshTrackableState (s.payload y) s).backref s.nextTrackable = none
        ∧ (freshTrackableState (s.payload y) s).events = s.events)
    ∧ (s.backref y = some t → y ∈ s.coll t → (s.coll t).Nodup → y ≠ s.nextTrackable →
        let x0 := s.nextTrackable
        let s' := moveResult t y x0 (freshTrackableState (s.payload y) s)
        moveTrackable y s = some (x0, s')
        ∧ s'.backref x0 = some t
        ∧ s'.backref y = none
        ∧ (s'.coll t).length = (s.coll t).length
        ∧ x0 ∈ s'.coll t
        ∧ y ∉ s'.coll t
        ∧ hookCount s'.events .didDetach t y = hookCount s.events .didDetach t y + 1
        ∧ hookCount s'.events .didAttach t x0 = hookCount s.events .didAttach t x0 + 1
        ∧ s'.events.length = s.events.length + 2)
    ∧ (x ≠ y → s.backref x = none → s.backref y = some t → y ∈ s.coll t → (s.coll t).Nodup →
        let s0 : State := { s with payload := setPayload s.payload x (s.payload y) }
        let s' := moveResult t y x s0
        moveAssignTrackable x y s = some s'
        ∧ s'.backref x = some t
        ∧ s'.backref y = none
        ∧ (s'.coll t).length = (s.coll t).length
        ∧ hookCount s'.events .didDetach t y = hookCount s.events .didDetach t y + 1
        ∧ hookCount s'.events .didAttach t x = hookCount s.events .didAttach t x + 1
        ∧ s'.events.length = s.events.length + 2)
    ∧ (x ≠ y → s.backref x = some w → w ≠ t → x ∈ s.coll w → s.backref y = some t →
        y ∈ s.coll t →
        let s0 : State := { s with payload := setPayload s.payload x (s.payload y) }
        let s1 := detachState w x s0
        let s' := moveResult t y x s1
        moveAssignTrackable x y s = some s'
        ∧ s'.backref x = some t
        ∧ s'.backref y = none
        ∧ (s'.coll t).length = (s.coll t).length
        ∧ (s'.coll w).length + 1 = (s.coll w).length
        ∧ hookCount s'.events .didDetach w x = hookCount s.events .didDetach w x + 1
        ∧ hookCount s'.events .didDetach t y = hookCount s.events .didDetach t y + 1
        ∧ hookCount s'.events .didAttach t x = hookCount s.events .didAttach t x + 1
        ∧ s'.events.length = s.events.length + 3)
    ∧ (x ≠ y → s.backref x = none → s.backref y = none →
        moveAssignTrackable x y s =
          some { s with payload := setPayload s.payload x (s.payload y) }) := by
  refine ⟨by simp [moveAssignTrackable], ?_, ?_, ?_, ?_, ?_⟩
  · intro h
    exact ⟨moveTrackable_detached h, by simp [freshTrackableState, setBackref_same], rfl⟩
  · intro h1 h2 hnd hynt x0 s'
    have hxy : x0 ≠ y := Ne.symm hynt
    have hcoll : s'.coll t = (s.coll t).erase y ++ [x0] :=
      moveResult_coll t y x0 (freshTrackableState (s.payload y) s)
    have hev : s'.events = s.events ++
        [Event.mk .didDetach t y ((s.coll t).erase y).length true
           (decide (y ∈ (s.coll t).erase y)),
         Event.mk .didAttach t x0 ((s.coll t).erase y ++ [x0]).length false true] :=
      moveResult_events t y x0 (freshTrackableState (s.payload y) s)
    refine ⟨moveTrackable_attached h1 h2 hynt,
            moveResult_backref_new t y x0 _,
            moveResult_backref_old t y x0 _ hxy, ?_, ?_, ?_, ?_, ?_, ?_⟩
    · rw [hcoll]; exact length_erase_append y x0 _ h2
    · rw [hcoll]; simp
    · rw [hcoll]; simp [hnd.not_mem_erase, hxy.symm]
    · rw [hev]; simp [hookCount_append, hookCount, isHookEvent, List.filter]
    · rw [hev]; simp [hookCount_append, hookCount, isHookEvent, List.filter]
    · rw [hev]; simp
  · intro hxy hbx h1 h2 hnd s0 s'
    have hcoll : s'.coll t = (s.coll t).erase y ++ [x] := moveResult_coll t y x s0
    have hev : s'.events = s.events ++
        [Event.mk .didDetach t y ((s.coll t).erase y).length true
           (decide (y ∈ (s.coll t).erase y)),
         Event.mk .didAttach t x ((s.coll t).erase y ++ [x]).length false true] :=
      moveResult_events t y x s0
    refine ⟨moveAssignTrackable_d1 hxy hbx h1 h2, moveResult_backref_new t y x _,
            moveResult_backref_old t y x _ hxy, ?_, ?_, ?_, ?_⟩
    · rw [hcoll]; exact length_erase_append y x _ h2
    · rw [hev]; simp [hookCount_append, hookCount, isHookEvent, List.filter]
    · rw [hev]; simp [hookCount_append, hookCount, isHookEvent, List.filter]
    · rw [hev]; simp
  · intro hxy hbx hwt h2x h1 h2 s0 s1 s'
    have hc1t : s1.coll t = s.coll t := by
      show (detachState w x s0).coll t = s.coll t
      simp [detachState, fireHook, setColl_other _ _ _ (Ne.symm hwt)]
    have hc1w : s1.coll w = (s.coll w).erase x := by
      show (detachState w x s0).coll w = (s.coll w).erase x
      simp [detachState, fireHook, setColl_same]
    have hcoll : s'.coll t = (s.coll t).erase y ++ [x] := by
      have h := moveResult_coll t y x s1
      rwa [hc1t] at h
    have hcollw : s'.coll w = (s.coll w).erase x := by
      have h := moveResult_coll_other t y x s1 hwt
      rwa [hc1w] at h
    have hev1 : s1.events = s.events ++
        [Event.mk .didDetach w x ((s.coll w).erase x).length true
           (decide (x ∈ (s.coll w).erase x))] := by
      show (detachState w x s0).events = _
      simp [detachState, fireHook, mkEvent, setColl_same, setBackref_same]
    have hev : s'.events = s.events ++
        [Event.mk .didDetach w x ((s.coll w).erase x).length true
           (decide (x ∈ (s.coll w).erase x)),
         Event.mk .didDetach t y ((s.coll t).erase y).length true
           (decide (y ∈ (s.coll t).erase y)),
         Event.mk .didAttach t x ((s.coll t).erase y ++ [x]).length false true] := by
      have h := moveResult_events t y x s1
      rw [hc1t, hev1] at h
      simpa [List.append_assoc] using h
    have hwt' : ¬ (w = t ∧ x = y) := fun hc => hwt hc.1
    refine ⟨moveAssignTrackable_d2 hxy hbx hwt h2x h1 h2, moveResult_backref_new t y x _,
            moveResult_backref_old t y x _ hxy, ?_, ?_, ?_, ?_, ?_, ?_⟩
    · rw [hcoll]; exact length_erase_append y x _ h2
    · rw [hcollw]
      have h := List.length_erase_of_mem h2x
      have hpos : 0 < (s.coll w).length := List.length_pos.mpr (List.ne_nil_of_mem h2x)
      omega
    · rw [hev]
      simp [hookCount_append, hookCount, isHookEvent, List.filter, hwt, Ne.symm hwt]
    · rw [hev]
      simp [hookCount_append, hookCount, isHookEvent, List.filter, hwt, Ne.symm hwt, hwt']
    · rw [hev]; simp [hookCount_append, hookCount, isHookEvent, List.filter]
    · rw [hev]; simp
  · intro hxy hbx hby
    exact moveAssignTrackable_idle hxy hbx hby

/-! Characterizations of the trackable copy operations. -/

/-- Copy construction from a detached source is a plain fresh construction. -/
theorem copyTrackable_detached {s : State} {y : Nat} (h : s.backref y = none) :
    copyTrackable y s = some (s.nextTrackable, freshTrackableState (s.payload y) s) := by
  simp [copyTrackable, h]

/-- Copy construction from a source attached to `t` attaches the fresh copy
to `t` through `tracker::attach`, firing `did_attach`. -/
theorem copyTrackable_attached {s : State} {t y : Nat} (h : s.backref y = some t) :
    copyTrackable y s = some (s.nextTrackable,
      fireHook (connectState t s.nextTrackable (freshTrackableState (s.payload y) s))
        .didAttach t s.nextTrackable) := by
  have hbx : (freshTrackableState (s.payload y) s).backref s.nextTrackable = none := by
    simp [freshTrackableState, setBackref_same]
  simp [copyTrackable, h, attach_detached (t := t) hbx]

/-- Copy assignment between trackables with the same tracker pointer only
copies the payload. -/
theorem copyAssignTrackable_same {s : State} {x y : Nat} (hxy : x ≠ y)
    (h : s.backref x = s.backref y) :
    copyAssignTrackable x y s =
      some { s with payload := setPayload s.payload x (s.payload y) } := by
  simp [copyAssignTrackable, hxy, h]

/-- Copy assignment onto a detached destination from a source attached to `t`. -/
theorem copyAssignTrackable_e {s : State} {t x y : Nat} (hxy : x ≠ y)
    (hbx : s.backref x = none) (h1 : s.backref y = some t) :
    copyAssignTrackable x y s =
      some (fireHook (connectState t x
        { s with payload := setPayload s.payload x (s.payload y) }) .didAttach t x) := by
  have hbx0 : ({ s with payload := setPayload s.payload x (s.payload y) } : State).backref x
      = none := hbx
  simp [copyAssignTrackable, hxy, hbx, h1, trackable_detach_noop hbx0,
        attach_detached (t := t) hbx0]

/-- Copy assignment onto a destination attached to `w ≠ t` from a source
attached to `t`: the destination is detached from `w` first. -/
theorem copyAssignTrackable_f {s : State} {t w x y : Nat} (hxy : x ≠ y)
    (hbx : s.backref x = some w) (hwt : w ≠ t) (h2x : x ∈ s.coll w)
    (h1 : s.backref y = some t) :
    copyAssignTrackable x y s =
      some (fireHook (connectState t x (detachState w x
        { s with payload := setPayload s.payload x (s.payload y) })) .didAttach t x) := by
  have hbx0 : ({ s with payload := setPayload s.payload x (s.payload y) } : State).backref x
      = some w := hbx
  have h2x0 : x ∈ ({ s with payload := setPayload s.payload x (s.payload y) } : State).coll w :=
    h2x
  have hdet1 := trackable_detach_hit hbx0 h2x0
  have hby1 : (detachState w x
      { s with payload := setPayload s.payload x (s.payload y) }).backref y = some t := by
    simp [detachState, fireHook, setBackref_other _ _ _ (Ne.symm hxy), h1]
  have hbx1 : (detachState w x
      { s with payload := setPayload s.payload x (s.payload y) }).backref x = none := by
    simp [detachState, fireHook, setBackref_same]
  have hatt := attach_detached (t := t) hbx1
  simp [copyAssignTrackable, hxy, hbx, h1, hwt, hdet1, hby1, hatt]

/-- C7 counterexample: in the demo heap trackables `1` and `2` are both
attached to tracker `0`; copy-assigning `1 = 2` — copying a trackable whose
source is attached — fires no notification at all (the trace stays empty and
the `did_attach` count stays `0`), because the destination's tracker already
equals the source's; the claim's promised `on_attach` firing does not occur. -/
theorem claim_C7_counterexample :
    sDemo.backref 2 = some 0
    ∧ (copyAssignTrackable 1 2 sDemo).map
        (fun s => (s.events.length, hookCount s.events .didAttach 0 1,
                   s.backref 1, s.payload 1))
      = some (0, 0, some 0, 7) := by decide

/-- C7 (amended): copy construction copies the payload, starts detached, and
— if the source is attached — attaches the copy to the source's tracker,
firing that tracker's `did_attach` and never `did_make`; copy assignment
behaves that way only when the destination's current tracker differs from the
source's (first detaching a destination that is attached elsewhere, firing its
old tracker's `did_detach`); when the two tracker pointers are equal it only
copies the payload and fires nothing. -/
theorem claim_C7_copy_trackable (s : State) (t w x y : Nat) :
    (s.backref y = none →
      copyTrackable y s = some (s.nextTrackable, freshTrackableState (s.payload y) s)
      ∧ (freshTrackableState (s.payload y) s).backref s.nextTrackable = none
      ∧ (freshTrackableState (s.payload y) s).payload s.nextTrackable = s.payload y
      ∧ (freshTrackableState (s.payload y) s).events = s.events)
    ∧ (s.backref y = some t →
      let x0 := s.nextTrackable
      let s' := fireHook (connectState t x0 (freshTrackableState (s.payload y) s))
        .didAttach t x0
      copyTrackable y s = some (x0, s')
      ∧ s'.backref x0 = some t
      ∧ x0 ∈ s'.coll t
      ∧ s'.payload x0 = s.payload y
      ∧ s'.events = s.events ++ [Event.mk .didAttach t x0 ((s.coll t).length + 1) false true]
      ∧ hookCount s'.events .didAttach t x0 = hookCount s.events .didAttach t x0 + 1
      ∧ (∀ t' x', hookCount s'.events .didMake t' x' = hookCount s.events .didMake t' x')
      ∧ s'.events.length = s.events.length + 1)
    ∧ (x ≠ y → s.backref x = s.backref y →
      let s' : State := { s with payload := setPayload s.payload x (s.payload y) }
      copyAssignTrackable x y s = some s'
      ∧ s'.payload x = s.payload y
      ∧ s'.backref x = s.backref x
      ∧ s'.events = s.events)
    ∧ (x ≠ y → s.backref x = none → s.backref y = some t →
      let s' := fireHook (connectState t x
        { s with payload := setPayload s.payload x (s.payload y) }) .didAttach t x
      copyAssignTrackable x y s = some s'
      ∧ s'.backref x = some t
      ∧ x ∈ s'.coll t
      ∧ hookCount s'.events .didAttach t x = hookCount s.events .didAttach t x + 1
      ∧ (∀ t' x', hookCount s'.events .didMake t' x' = hookCount s.events .didMake t' x')
      ∧ s'.events.length = s.events.length + 1)
    ∧ (x ≠ y → s.backref x = some w → w ≠ t → x ∈ s.coll w → s.backref y = some t →
      let s' := fireHook (connectState t x (detachState w x
        { s with payload := setPayload s.payload x (s.payload y) })) .didAttach t x
      copyAssignTrackable x y s = some s'
      ∧ s'.backref x = some t
      ∧ hookCount s'.events .didDetach w x = hookCount s.events .didDetach w x + 1
      ∧ hookCount s'.events .didAttach t x = hookCount s.events .didAttach t x + 1
      ∧ (∀ t' x', hookCount s'.events .didMake t' x' = hookCount s.events .didMake t' x')
      ∧ (s'.coll w).length + 1 = (s.coll w).length
      ∧ s'.events.length = s.events.length + 2) := by
  refine ⟨?_, ?_, ?_, ?_, ?_⟩
  · intro h
    exact ⟨copyTrackable_detached h, by simp [freshTrackableState, setBackref_same],
           by simp [freshTrackableState, setPayload], rfl⟩
  · intro h x0 s'
    refine ⟨copyTrackable_attached h, ?_, ?_, ?_, ?_, ?_, ?_, ?_⟩
    · simp [s', fireHook, connectState, setBackref_same]
    · simp [s', fireHook, connectState, setColl_same]
    · simp [s', fireHook, connectState, freshTrackableState, setPayload, x0]
    · simp [s', fireHook, mkEvent, connectState, freshTrackableState,
            setColl_same, setBackref_same]
    · simp [s', fireHook, mkEvent, hookCount, isHookEvent, List.filter_append,
            connectState, freshTrackableState, setColl_same, setBackref_same]
    · intro t' x'
      simp [s', fireHook, mkEvent, hookCount, isHookEvent, List.filter_append,
            connectState, freshTrackableState]
    · simp [s', fireHook, connectState, freshTrackableState]
  · intro hxy h s'
    exact ⟨copyAssignTrackable_same hxy h, by simp [s', setPayload], rfl, rfl⟩
  · intro hxy hbx h1 s'
    refine ⟨copyAssignTrackable_e hxy hbx h1, ?_, ?_, ?_, ?_, ?_⟩
    · simp [s', fireHook, connectState, setBackref_same]
    · simp [s', fireHook, connectState, setColl_same]
    · simp [s', fireHook, mkEvent, hookCount, isHookEvent, List.filter_append,
            connectState, setColl_same, setBackref_same]
    · intro t' x'
      simp [s', fireHook, mkEvent, hookCount, isHookEvent, List.filter_append, connectState]
    · simp [s', fireHook, connectState]
  · intro hxy hbx hwt h2x h1 s'
    have hc1t : (detachState w x
        { s with payload := setPayload s.payload x (s.payload y) }).coll t = s.coll t := by
      simp [detachState, fireHook, setColl_other _ _ _ (Ne.symm hwt)]
    have hc1w : (detachState w x
        { s with payload := setPayload s.payload x (s.payload y) }).coll w
        = (s.coll w).erase x := by
      simp [detachState, fireHook, setColl_same]
    have hev : s'.events = s.events ++
        [Event.mk .didDetach w x ((s.coll w).erase x).length true
           (decide (x ∈ (s.coll w).erase x)),
         Event.mk .didAttach t x ((s.coll t).length + 1) false true] := by
      simp [s', fireHook, mkEvent, connectState, detachState, setColl_same,
            setColl_other _ _ _ (Ne.symm hwt), setBackref_same, List.append_assoc]
    have hwt' : ¬ (w = t ∧ x = x) := fun hc => hwt hc.1
    refine ⟨copyAssignTrackable_f hxy hbx hwt h2x h1, ?_, ?_, ?_, ?_, ?_, ?_⟩
    · simp [s', fireHook, connectState, setBackref_same]
    · rw [hev]
      simp [hookCount_append, hookCount, isHookEvent, List.filter, hwt, Ne.symm hwt, hwt']
    · rw [hev]
      simp [hookCount_append, hookCount, isHookEvent, List.filter, hwt, Ne.symm hwt, hwt']
    · intro t' x'
      rw [hev]
      simp [hookCount_append, hookCount, isHookEvent, List.filter]
    · have hwl : s'.coll w = (s.coll w).erase x := by
        have h := hc1w
        simp [s', fireHook, connectState, setColl_other _ _ _ hwt, h]
      rw [hwl]
      have h := List.length_erase_of_mem h2x
      have hpos : 0 < (s.coll w).length := List.length_pos.mpr (List.ne_nil_of_mem h2x)
      omega
    · rw [hev]; simp

/-- Witness for C7 (amended) on the demo heap: copy-constructing from attached
member `1` attaches the copy to tracker `0` and the copy carries the payload. -/
theorem claim_C7_copy_trackable_witness :
    sDemo.backref 1 = some 0
    ∧ (fireHook (connectState 0 sDemo.nextTrackable
         (freshTrackableState (sDemo.payload 1) sDemo)) .didAttach 0 sDemo.nextTrackable).backref
        sDemo.nextTrackable = some 0 :=
  ⟨by decide, ((claim_C7_copy_trackable sDemo 0 0 1 1).2.1 (by decide)).2.1⟩

/-- Witness for C6 (amended) on the demo heap: moving from attached member `2`
of tracker `0` leaves tracker `0`'s collection size unchanged. -/
theorem claim_C6_move_trackable_witness :
    sDemo.backref 2 = some 0 ∧ 2 ∈ sDemo.coll 0 ∧ (sDemo.coll 0).Nodup
    ∧ 2 ≠ sDemo.nextTrackable
    ∧ ((moveResult 0 2 sDemo.nextTrackable
          (freshTrackableState (sDemo.payload 2) sDemo)).coll 0).length
        = (sDemo.coll 0).length :=
  ⟨by decide, by decide, by decide, by decide,
   ((claim_C6_move_trackable sDemo 0 0 1 2).2.2.1
      (by decide) (by decide) (by decide) (by decide)).2.2.2.1⟩

theorem hookCount_map_other {h : Hook} (hne : h ≠ Hook.didDetach) (t' x' t n : Nat)
    (q : Nat → Bool) (l : List Nat) :
    hookCount (l.map (fun y => Event.mk .didDetach t y n true (q y))) h t' x' = 0 := by
  induction l with
  | nil => rfl
  | cons a as ih =>
    rw [List.map_cons, hookCount_cons, ih]
    simp [isHookEvent, Ne.symm hne]

/-- C8: moving a tracker transfers its entire collection to the destination
and rewires every transferred member's back-reference to the destination
instance (each then reports attached-to-the-new-instance); the source ends
with an empty collection; no `did_attach` or `did_make` fires for transferred
members (move construction fires nothing at all); move assignment additionally
first fires `did_detach` once for every member currently owned by the
destination. -/
theorem claim_C8_move_tracker (s : State) (t rhs : Nat) :
    (rhs ≠ s.nextTracker →
      let u := s.nextTracker
      let s' := (moveTracker rhs s).2
      (moveTracker rhs s).1 = u
      ∧ s'.coll u = s.coll rhs
      ∧ s'.coll rhs = []
      ∧ (∀ x ∈ s.coll rhs, s'.backref x = some u ∧ is_attached s' u (some x) = true)
      ∧ s'.events = s.events
      ∧ s'.trackables = s.trackables)
    ∧ (t ≠ rhs → (s.coll t).Nodup →
      let s' := transferState t rhs (detach_all t s)
      moveAssignTracker t rhs s = some s'
      ∧ s'.coll t = s.coll rhs
      ∧ s'.coll rhs = []
      ∧ (∀ x ∈ s.coll rhs, s'.backref x = some t ∧ is_attached s' t (some x) = true)
      ∧ (∀ x ∈ s.coll t,
           hookCount s'.events .didDetach t x = hookCount s.events .didDetach t x + 1)
      ∧ (∀ t' x', hookCount s'.events .didAttach t' x' = hookCount s.events .didAttach t' x')
      ∧ (∀ t' x', hookCount s'.events .didMake t' x' = hookCount s.events .didMake t' x')
      ∧ s'.trackables = s.trackables) := by
  constructor
  · intro hne u s'
    have hcrhs : (setColl s.coll u []) rhs = s.coll rhs := setColl_other _ _ _ hne
    refine ⟨rfl, ?_, ?_, ?_, rfl, rfl⟩
    · show setColl (setColl (setColl s.coll u []) rhs []) u ((setColl s.coll u []) rhs) u
        = s.coll rhs
      rw [setColl_same, hcrhs]
    · show setColl (setColl (setColl s.coll u []) rhs []) u ((setColl s.coll u []) rhs) rhs
        = []
      rw [setColl_other _ _ _ hne, setColl_same]
    · intro x hx
      have hx' : x ∈ (setColl s.coll u []) rhs := by rw [hcrhs]; exact hx
      constructor
      · show (if x ∈ (setColl s.coll u []) rhs then some u else _) = some u
        rw [if_pos hx']
      · show is_attached s' u (some x) = true
        have hb : s'.backref x = some u := by
          show (if x ∈ (setColl s.coll u []) rhs then some u else _) = some u
          rw [if_pos hx']
        simp [is_attached, hb]
  · intro hne hnd s'
    have hda := detach_all_coll t s
    have hcrhs : (detach_all t s).coll rhs = s.coll rhs := by
      rw [hda]; exact setColl_other _ _ _ (Ne.symm hne)
    have hct : (detach_all t s).coll t = [] := by rw [hda, setColl_same]
    have hev : s'.events = s.events ++
        (s.coll t).map
          (fun x => Event.mk .didDetach t x (s.coll t).length true
            (decide (x ∈ s.coll t))) := by
      show (detach_all t s).events = _
      exact detach_all_events t s
    refine ⟨?_, ?_, ?_, ?_, ?_, ?_, ?_, ?_⟩
    · simp [moveAssignTracker, hne, s']
    · show setColl (setColl (detach_all t s).coll rhs []) t ((detach_all t s).coll rhs) t
        = s.coll rhs
      rw [setColl_same, hcrhs]
    · show setColl (setColl (detach_all t s).coll rhs []) t ((detach_all t s).coll rhs) rhs
        = []
      rw [setColl_other _ _ _ (Ne.symm hne), setColl_same]
    · intro x hx
      have hx' : x ∈ (detach_all t s).coll rhs := by rw [hcrhs]; exact hx
      constructor
      · show (if x ∈ (detach_all t s).coll rhs then some t else _) = some t
        rw [if_pos hx']
      · have hb : s'.backref x = some t := by
          show (if x ∈ (detach_all t s).coll rhs then some t else _) = some t
          rw [if_pos hx']
        simp [is_attached, hb]
    · intro x hx
      rw [hev, hookCount_append, hookCount_map_nodup t x _ _ _ hnd hx]
    · intro t' x'
      rw [hev, hookCount_append,
          hookCount_map_other (by simp) t' x' t (s.coll t).length _ (s.coll t)]
      omega
    · intro t' x'
      rw [hev, hookCount_append,
          hookCount_map_other (by simp) t' x' t (s.coll t).length _ (s.coll t)]
      omega
    · show (detach_all t s).trackables = s.trackables
      exact detach_all_trackables t s

/-- Witness for C8 on the demo heap: move-assigning tracker `0`'s collection
into tracker `1` rewires member `1`'s back-reference to tracker `1`. -/
theorem claim_C8_move_tracker_witness :
    (1 : Nat) ≠ 0 ∧ (sDemo.coll 1).Nodup
    ∧ (transferState 1 0 (detach_all 1 sDemo)).backref 1 = some 1 :=
  ⟨by decide, by decide,
   (((claim_C8_move_tracker sDemo 1 0).2 (by decide) (by decide)).2.2.2.1 1 (by decide)).1⟩

/-- C9: direct value construction of a trackable forwards the constructor
arguments to the payload and the new object starts detached (empty
back-reference), with no notification fired; construction from another
trackable is not this forwarding form but the copy operation, which attaches
the new object to the source's tracker instead of leaving it detached. -/
theorem claim_C9_value_construction (s : State) (v : Nat) :
    ((newTrackable v s).2.payload (newTrackable v s).1 = v
     ∧ (newTrackable v s).2.backref (newTrackable v s).1 = none
     ∧ (newTrackable v s).2.trackables = s.trackables ++ [(newTrackable v s).1]
     ∧ (newTrackable v s).2.events = s.events)
    ∧ (∀ t y, s.backref y = some t →
        copyTrackable y s = some (s.nextTrackable,
          fireHook (connectState t s.nextTrackable (freshTrackableState (s.payload y) s))
            .didAttach t s.nextTrackable)
        ∧ (fireHook (connectState t s.nextTrackable (freshTrackableState (s.payload y) s))
            .didAttach t s.nextTrackable).backref s.nextTrackable = some t) := by
  constructor
  · refine ⟨?_, ?_, rfl, rfl⟩
    · simp [newTrackable, freshTrackableState, setPayload]
    · simp [newTrackable, freshTrackableState, setBackref_same]
  · intro t y h
    exact ⟨copyTrackable_attached h,
           by simp [fireHook, connectState, setBackref_same]⟩

/-- Witness for C9 on the demo heap: copy construction from attached member
`1` yields an object attached to tracker `0`, not a detached one. -/
theorem claim_C9_value_construction_witness :
    sDemo.backref 1 = some 0
    ∧ (fireHook (connectState 0 sDemo.nextTrackable
         (freshTrackableState (sDemo.payload 1) sDemo)) .didAttach 0 sDemo.nextTrackable).backref
        sDemo.nextTrackable = some 0 :=
  ⟨by decide, ((claim_C9_value_construction sDemo 0).2 0 1 (by decide)).2⟩

/-- Witness for C4 on the demo heap: detaching attached member `2` from
tracker `0` succeeds and its trace grew by one `did_detach`. -/
theorem claim_C4_detach_witness :
    sDemo.backref 2 = some 0 ∧ 2 ∈ sDemo.coll 0
    ∧ detach 0 (some 2) sDemo = some (true, detachState 0 2 sDemo)
    ∧ ((detachState 0 2 sDemo).coll 0).length + 1 = (sDemo.coll 0).length :=
  ⟨by decide, by decide,
   ((claim_C4_detach sDemo 0 2).2.2.1 (by decide) (by decide)).1,
   ((claim_C4_detach sDemo 0 2).2.2.1 (by decide) (by decide)).2.1⟩

/-! The C1 machinery: the one-to-one membership invariant as an inductive
invariant over all states reachable through the public API. -/

section Projections

variable (s : State) (t x : Nat)

theorem connectState_coll_same : (connectState t x s).coll t = s.coll t ++ [x] := by
  simp [connectState, setColl_same]

theorem connectState_coll_other {u : Nat} (h : u ≠ t) :
    (connectState t x s).coll u = s.coll u := by
  simp [connectState, setColl_other _ _ _ h]

theorem connectState_backref_same : (connectState t x s).backref x = some t := by
  simp [connectState, setBackref_same]

theorem connectState_backref_other {y : Nat} (h : y ≠ x) :
    (connectState t x s).backref y = s.backref y := by
  simp [connectState, setBackref_other _ _ _ h]

theorem detachState_coll_same : (detachState t x s).coll t = (s.coll t).erase x := by
  simp [detachState, fireHook, setColl_same]

theorem detachState_coll_other {u : Nat} (h : u ≠ t) :
    (detachState t x s).coll u = s.coll u := by
  simp [detachState, fireHook, setColl_other _ _ _ h]

theorem detachState_backref_same : (detachState t x s).backref x = none := by
  simp [detachState, fireHook, setBackref_same]

theorem detachState_backref_other {y : Nat} (h : y ≠ x) :
    (detachState t x s).backref y = s.backref y := by
  simp [detachState, fireHook, setBackref_other _ _ _ h]

theorem detach_all_coll_apply (u : Nat) :
    (detach_all t s).coll u = if u = t then [] else s.coll u := by
  rw [detach_all_coll t s]; rfl

theorem detach_all_backref_apply (y : Nat) :
    (detach_all t s).backref y = if y ∈ s.coll t then none else s.backref y := by
  rw [detach_all_backref t s]

theorem detach_all_nextTracker : (detach_all t s).nextTracker = s.nextTracker := by
  have h := (detachAllLoop_spec t (s.coll t) s).2.2.2.2.2.2.1
  simp [detach_all, h]

theorem detach_all_nextTrackable : (detach_all t s).nextTrackable = s.nextTrackable := by
  have h := (detachAllLoop_spec t (s.coll t) s).2.2.2.2.2.2.2
  simp [detach_all, h]

theorem transferState_coll_apply (rhs u : Nat) :
    (transferState t rhs s).coll u =
      if u = t then s.coll rhs else if u = rhs then [] else s.coll u := rfl

theorem transferState_backref_apply (rhs y : Nat) :
    (transferState t rhs s).backref y =
      if y ∈ s.coll rhs then some t else s.backref y := rfl

end Projections

/-- Well-formedness: the inductive invariant carried through every public
operation.  `mem_back`, `back_mem` and `coll_nodup` together are the
one-to-one membership invariant; the remaining fields tie object liveness and
the fresh-id counters to it. -/
structure WF (s : State) : Prop where
  mem_back : ∀ t x, x ∈ s.coll t → s.backref x = some t
  back_mem : ∀ x t, s.backref x = some t → x ∈ s.coll t
  coll_nodup : ∀ t, (s.coll t).Nodup
  back_live : ∀ x t, s.backref x = some t → t ∈ s.trackers
  dead_back : ∀ x, x ∉ s.trackables → s.backref x = none
  dead_coll : ∀ t, t ∉ s.trackers → s.coll t = []
  tb_lt : ∀ x, x ∈ s.trackables → x < s.nextTrackable
  tr_lt : ∀ t, t ∈ s.trackers → t < s.nextTracker

theorem WF.mem_live {s : State} (h : WF s) {t x : Nat} (hx : x ∈ s.coll t) :
    x ∈ s.trackables := by
  by_contra hc
  have h2 := h.dead_back x hc
  rw [h.mem_back t x hx] at h2
  simp at h2

theorem WF.not_mem_of_back_none {s : State} (h : WF s) {x : Nat}
    (hb : s.backref x = none) (t : Nat) : x ∉ s.coll t := by
  intro hx
  have h1 := h.mem_back t x hx
  rw [hb] at h1
  simp at h1

theorem WF.fresh_tb {s : State} (h : WF s) : s.nextTrackable ∉ s.trackables :=
  fun hc => absurd (h.tb_lt _ hc) (lt_irrefl _)

theorem WF.fresh_tb_back {s : State} (h : WF s) : s.backref s.nextTrackable = none :=
  h.dead_back _ h.fresh_tb

theorem WF.fresh_tr {s : State} (h : WF s) : s.nextTracker ∉ s.trackers :=
  fun hc => absurd (h.tr_lt _ hc) (lt_irrefl _)

theorem WF_initState : WF initState := by
  constructor <;> intros <;> simp_all [initState]

theorem WF_fireHook {s : State} (h : WF s) (hk : Hook) (t x : Nat) :
    WF (fireHook s hk t x) :=
  ⟨h.mem_back, h.back_mem, h.coll_nodup, h.back_live, h.dead_back, h.dead_coll,
   h.tb_lt, h.tr_lt⟩

theorem WF_payload {s : State} (h : WF s) (p : Nat → Nat) :
    WF { s with payload := p } :=
  ⟨h.mem_back, h.back_mem, h.coll_nodup, h.back_live, h.dead_back, h.dead_coll,
   h.tb_lt, h.tr_lt⟩

theorem WF_connectState {s : State} {t x : Nat} (h : WF s) (ht : t ∈ s.trackers)
    (hx : x ∈ s.trackables) (hb : s.backref x = none) : WF (connectState t x s) := by
  have hxnot : ∀ u, x ∉ s.coll u := h.not_mem_of_back_none hb
  constructor
  · intro u y hy
    by_cases hu : u = t
    · subst hu
      rw [connectState_coll_same] at hy
      rcases List.mem_append.mp hy with hy' | hy'
      · have hyx : y ≠ x := fun he => hxnot _ (he ▸ hy')
        rw [connectState_backref_other _ _ _ hyx]
        exact h.mem_back _ y hy'
      · have hyx : y = x := by simpa using hy'
        subst hyx
        exact connectState_backref_same _ _ _
    · rw [connectState_coll_other _ _ _ hu] at hy
      have hyx : y ≠ x := fun he => hxnot u (he ▸ hy)
      rw [connectState_backref_other _ _ _ hyx]
      exact h.mem_back u y hy
  · intro y u hb'
    by_cases hyx : y = x
    · subst hyx
      rw [connectState_backref_same] at hb'
      have hut : t = u := Option.some.inj hb'
      subst hut
      rw [connectState_coll_same]
      simp
    · rw [connectState_backref_other _ _ _ hyx] at hb'
      have hy := h.back_mem y u hb'
      by_cases hu : u = t
      · subst hu
        rw [connectState_coll_same]
        exact List.mem_append_left _ hy
      · rw [connectState_coll_other _ _ _ hu]
        exact hy
  · intro u
    by_cases hu : u = t
    · subst hu
      rw [connectState_coll_same]
      refine List.Nodup.append (h.coll_nodup u) (List.nodup_singleton x) ?_
      intro a ha hax
      have hax' : a = x := by simpa using hax
      exact hxnot u (hax' ▸ ha)
    · rw [connectState_coll_other _ _ _ hu]
      exact h.coll_nodup u
  · intro y u hb'
    by_cases hyx : y = x
    · subst hyx
      rw [connectState_backref_same] at hb'
      have hut : t = u := Option.some.inj hb'
      exact hut ▸ ht
    · rw [connectState_backref_other _ _ _ hyx] at hb'
      exact h.back_live y u hb'
  · intro y hy
    by_cases hyx : y = x
    · subst hyx
      exact absurd hx hy
    · rw [connectState_backref_other _ _ _ hyx]
      exact h.dead_back y hy
  · intro u hu
    by_cases hut : u = t
    · subst hut
      exact absurd ht hu
    · rw [connectState_coll_other _ _ _ hut]
      exact h.dead_coll u hu
  · exact h.tb_lt
  · exact h.tr_lt

theorem WF_detachState {s : State} {t x : Nat} (h : WF s)
    (hb : s.backref x = some t) : WF (detachState t x s) := by
  constructor
  · intro u y hy
    by_cases hu : u = t
    · subst hu
      rw [detachState_coll_same] at hy
      obtain ⟨hyx, hy'⟩ := (h.coll_nodup u).mem_erase_iff.mp hy
      rw [detachState_backref_other _ _ _ hyx]
      exact h.mem_back u y hy'
    · rw [detachState_coll_other _ _ _ hu] at hy
      have hyx : y ≠ x := by
        intro he
        subst he
        have h1 := h.mem_back u y hy
        rw [hb] at h1
        exact hu (Option.some.inj h1).symm
      rw [detachState_backref_other _ _ _ hyx]
      exact h.mem_back u y hy
  · intro y u hb'
    by_cases hyx : y = x
    · subst hyx
      rw [detachState_backref_same] at hb'
      simp at hb'
    · rw [detachState_backref_other _ _ _ hyx] at hb'
      have hy := h.back_mem y u hb'
      by_cases hu : u = t
      · subst hu
        rw [detachState_coll_same]
        exact (h.coll_nodup u).mem_erase_iff.mpr ⟨hyx, hy⟩
      · rw [detachState_coll_other _ _ _ hu]
        exact hy
  · intro u
    by_cases hu : u = t
    · subst hu
      rw [detachState_coll_same]
      exact (h.coll_nodup u).erase x
    · rw [detachState_coll_other _ _ _ hu]
      exact h.coll_nodup u
  · intro y u hb'
    by_cases hyx : y = x
    · subst hyx
      rw [detachState_backref_same] at hb'
      simp at hb'
    · rw [detachState_backref_other _ _ _ hyx] at hb'
      exact h.back_live y u hb'
  · intro y hy
    by_cases hyx : y = x
    · subst hyx
      exact detachState_backref_same s t y
    · rw [detachState_backref_other _ _ _ hyx]
      exact h.dead_back y hy
  · intro u hu
    by_cases hut : u = t
    · subst hut
      exact absurd (h.back_live x u hb) hu
    · rw [detachState_coll_other _ _ _ hut]
      exact h.dead_coll u hu
  · exact h.tb_lt
  · exact h.tr_lt

theorem WF_freshTrackableState {s : State} (h : WF s) (v : Nat) :
    WF (freshTrackableState v s) := by
  have hfb : (freshTrackableState v s).backref s.nextTrackable = none := by
    simp [freshTrackableState, setBackref_same]
  have hother : ∀ y, y ≠ s.nextTrackable →
      (freshTrackableState v s).backref y = s.backref y := by
    intro y hy
    simp [freshTrackableState, setBackref_other _ _ _ hy]
  constructor
  · intro u y hy
    have hlt := h.tb_lt y (h.mem_live hy)
    have hynt : y ≠ s.nextTrackable := Nat.ne_of_lt hlt
    rw [hother y hynt]
    exact h.mem_back u y hy
  · intro y u hb'
    by_cases hynt : y = s.nextTrackable
    · subst hynt
      rw [hfb] at hb'
      simp at hb'
    · rw [hother y hynt] at hb'
      exact h.back_mem y u hb'
  · exact h.coll_nodup
  · intro y u hb'
    by_cases hynt : y = s.nextTrackable
    · subst hynt
      rw [hfb] at hb'
      simp at hb'
    · rw [hother y hynt] at hb'
      exact h.back_live y u hb'
  · intro y hy
    have hy1 : y ∉ s.trackables := fun hc => hy (by simp [freshTrackableState, hc])
    have hynt : y ≠ s.nextTrackable := fun hc => hy (by simp [freshTrackableState, hc])
    rw [hother y hynt]
    exact h.dead_back y hy1
  · exact h.dead_coll
  · intro y hy
    show y < s.nextTrackable + 1
    rcases List.mem_append.mp hy with hy' | hy'
    · exact Nat.lt_succ_of_lt (h.tb_lt y hy')
    · have : y = s.nextTrackable := by simpa using hy'
      omega
  · exact h.tr_lt

theorem WF_detach_all {s : State} (h : WF s) (t : Nat) : WF (detach_all t s) := by
  have hcoll := detach_all_coll_apply s t
  have hback := detach_all_backref_apply s t
  have htr := detach_all_trackers t s
  have htb := detach_all_trackables t s
  have hn1 := detach_all_nextTracker s t
  have hn2 := detach_all_nextTrackable s t
  constructor
  · intro u y hy
    rw [hcoll u] at hy
    by_cases hut : u = t
    · rw [if_pos hut] at hy
      simp at hy
    · rw [if_neg hut] at hy
      have hb := h.mem_back u y hy
      have hyt : y ∉ s.coll t := by
        intro hc
        have h1 := h.mem_back t y hc
        rw [hb] at h1
        exact hut (Option.some.inj h1)
      rw [hback y, if_neg hyt]
      exact hb
  · intro y u hb'
    rw [hback y] at hb'
    by_cases hyt : y ∈ s.coll t
    · rw [if_pos hyt] at hb'
      simp at hb'
    · rw [if_neg hyt] at hb'
      have hy := h.back_mem y u hb'
      have hut : u ≠ t := fun he => hyt (he ▸ hy)
      rw [hcoll u, if_neg hut]
      exact hy
  · intro u
    rw [hcoll u]
    by_cases hut : u = t
    · rw [if_pos hut]; exact List.nodup_nil
    · rw [if_neg hut]; exact h.coll_nodup u
  · intro y u hb'
    rw [hback y] at hb'
    by_cases hyt : y ∈ s.coll t
    · rw [if_pos hyt] at hb'
      simp at hb'
    · rw [if_neg hyt] at hb'
      rw [htr]
      exact h.back_live y u hb'
  · intro y hy
    rw [htb] at hy
    rw [hback y]
    by_cases hyt : y ∈ s.coll t
    · rw [if_pos hyt]
    · rw [if_neg hyt]
      exact h.dead_back y hy
  · intro u hu
    rw [htr] at hu
    rw [hcoll u]
    by_cases hut : u = t
    · rw [if_pos hut]
    · rw [if_neg hut]
      exact h.dead_coll u hu
  · intro y hy
    rw [htb] at hy
    rw [hn2]
    exact h.tb_lt y hy
  · intro u hu
    rw [htr] at hu
    rw [hn1]
    exact h.tr_lt u hu

theorem WF_newTracker {s : State} (h : WF s) : WF (newTracker s).2 := by
  have hfr := h.fresh_tr
  constructor
  · intro u y hy
    show s.backref y = some u
    by_cases hu : u = s.nextTracker
    · have hc : (newTracker s).2.coll u = [] := by
        show setColl s.coll s.nextTracker [] u = []
        rw [hu]
        exact setColl_same _ _ _
      rw [hc] at hy
      simp at hy
    · rw [show (newTracker s).2.coll u = s.coll u from setColl_other _ _ _ hu] at hy
      exact h.mem_back u y hy
  · intro y u hb'
    have hb : s.backref y = some u := hb'
    have hy := h.back_mem y u hb
    have hu : u ≠ s.nextTracker := fun he => hfr (he ▸ h.back_live y u hb)
    show y ∈ (newTracker s).2.coll u
    rw [show (newTracker s).2.coll u = s.coll u from setColl_other _ _ _ hu]
    exact hy
  · intro u
    by_cases hu : u = s.nextTracker
    · have hc : (newTracker s).2.coll u = [] := by
        show setColl s.coll s.nextTracker [] u = []
        rw [hu]
        exact setColl_same _ _ _
      rw [hc]
      exact List.nodup_nil
    · rw [show (newTracker s).2.coll u = s.coll u from setColl_other _ _ _ hu]
      exact h.coll_nodup u
  · intro y u hb'
    have hb : s.backref y = some u := hb'
    show u ∈ s.trackers ++ [s.nextTracker]
    exact List.mem_append_left _ (h.back_live y u hb)
  · exact h.dead_back
  · intro u hu
    have hu1 : u ∉ s.trackers := fun hc => hu (List.mem_append_left _ hc)
    have hu2 : u ≠ s.nextTracker := fun hc => hu (by simp [newTracker, hc])
    show setColl s.coll s.nextTracker [] u = []
    rw [setColl_other _ _ _ hu2]
    exact h.dead_coll u hu1
  · exact h.tb_lt
  · intro u hu
    show u < s.nextTracker + 1
    rcases List.mem_append.mp hu with hu' | hu'
    · exact Nat.lt_succ_of_lt (h.tr_lt u hu')
    · have : u = s.nextTracker := by simpa using hu'
      omega

theorem WF_transferState {s : State} {t rhs : Nat} (h : WF s) (ht : t ∈ s.trackers)
    (hrhs : rhs ∈ s.trackers) (_hne : t ≠ rhs) (hct : s.coll t = []) :
    WF (transferState t rhs s) := by
  have hcoll := transferState_coll_apply s t rhs
  have hback := transferState_backref_apply s t rhs
  constructor
  · intro u y hy
    rw [hcoll u] at hy
    rw [hback y]
    by_cases hut : u = t
    · rw [if_pos hut] at hy
      rw [if_pos hy, hut]
    · rw [if_neg hut] at hy
      by_cases hur : u = rhs
      · rw [if_pos hur] at hy
        simp at hy
      · rw [if_neg hur] at hy
        have hb := h.mem_back u y hy
        have hym : y ∉ s.coll rhs := by
          intro hc
          have h1 := h.mem_back rhs y hc
          rw [hb] at h1
          exact hur (Option.some.inj h1)
        rw [if_neg hym]
        exact hb
  · intro y u hb'
    rw [hback y] at hb'
    rw [hcoll u]
    by_cases hym : y ∈ s.coll rhs
    · rw [if_pos hym] at hb'
      have hut : t = u := Option.some.inj hb'
      rw [if_pos hut.symm]
      exact hym
    · rw [if_neg hym] at hb'
      have hy := h.back_mem y u hb'
      have hut : u ≠ t := by
        intro he
        rw [he, hct] at hy
        simp at hy
      have hur : u ≠ rhs := fun he => hym (he ▸ hy)
      rw [if_neg hut, if_neg hur]
      exact hy
  · intro u
    rw [hcoll u]
    by_cases hut : u = t
    · rw [if_pos hut]; exact h.coll_nodup rhs
    · rw [if_neg hut]
      by_cases hur : u = rhs
      · rw [if_pos hur]; exact List.nodup_nil
      · rw [if_neg hur]; exact h.coll_nodup u
  · intro y u hb'
    rw [hback y] at hb'
    show u ∈ s.trackers
    by_cases hym : y ∈ s.coll rhs
    · rw [if_pos hym] at hb'
      exact (Option.some.inj hb') ▸ ht
    · rw [if_neg hym] at hb'
      exact h.back_live y u hb'
  · intro y hy
    rw [hback y]
    have hym : y ∉ s.coll rhs := fun hc => hy (h.mem_live hc)
    rw [if_neg hym]
    exact h.dead_back y hy
  · intro u hu
    rw [hcoll u]
    have hut : u ≠ t := fun he => hu (he ▸ ht)
    have hur : u ≠ rhs := fun he => hu (he ▸ hrhs)
    rw [if_neg hut, if_neg hur]
    exact h.dead_coll u hu
  · exact h.tb_lt
  · exact h.tr_lt

theorem WF_erase_trackable {s : State} {x : Nat} (h : WF s)
    (hb : s.backref x = none) : WF { s with trackables := s.trackables.erase x } := by
  constructor
  · exact h.mem_back
  · exact h.back_mem
  · exact h.coll_nodup
  · exact h.back_live
  · intro y hy
    by_cases hyx : y = x
    · subst hyx
      exact hb
    · have hy1 : y ∉ s.trackables := fun hc => hy ((List.mem_erase_of_ne hyx).mpr hc)
      exact h.dead_back y hy1
  · exact h.dead_coll
  · intro y hy
    exact h.tb_lt y (List.mem_of_mem_erase hy)
  · exact h.tr_lt

theorem WF_destroyTracker {s : State} (h : WF s) (t : Nat) :
    WF (destroyTracker t s) := by
  have h1 : WF (detach_all t s) := WF_detach_all h t
  constructor
  · exact h1.mem_back
  · exact h1.back_mem
  · exact h1.coll_nodup
  · intro y u hb'
    have hb : (detach_all t s).backref y = some u := hb'
    have hu := h1.back_live y u hb
    have hut : u ≠ t := by
      intro he
      have hy := h1.back_mem y u hb
      rw [he, detach_all_coll_apply s t t, if_pos rfl] at hy
      simp at hy
    show u ∈ (detach_all t s).trackers.erase t
    exact (List.mem_erase_of_ne hut).mpr hu
  · exact h1.dead_back
  · intro u hu
    by_cases hut : u = t
    · show (detach_all t s).coll u = []
      rw [detach_all_coll_apply s t u, if_pos hut]
    · have hu1 : u ∉ (detach_all t s).trackers := by
        intro hc
        exact hu ((List.mem_erase_of_ne hut).mpr hc)
      exact h1.dead_coll u hu1
  · exact h1.tb_lt
  · intro u hu
    exact h1.tr_lt u (List.mem_of_mem_erase hu)

/-- Copy assignment onto a destination attached to `w` from a detached
source: the destination is detached and stays detached. -/
theorem copyAssignTrackable_g {s : State} {w x y : Nat} (hxy : x ≠ y)
    (hbx : s.backref x = some w) (h2x : x ∈ s.coll w) (hby : s.backref y = none) :
    copyAssignTrackable x y s =
      some (detachState w x { s with payload := setPayload s.payload x (s.payload y) }) := by
  have hbx0 : ({ s with payload := setPayload s.payload x (s.payload y) } : State).backref x
      = some w := hbx
  have h2x0 : x ∈ ({ s with payload := setPayload s.payload x (s.payload y) } : State).coll w :=
    h2x
  have hdet1 := trackable_detach_hit hbx0 h2x0
  have hby1 : (detachState w x
      { s with payload := setPayload s.payload x (s.payload y) }).backref y = none := by
    rw [detachState_backref_other _ _ _ (Ne.symm hxy)]
    exact hby
  simp [copyAssignTrackable, hxy, hbx, hby, hdet1, hby1]

/-- Move assignment onto a destination attached to `w` from a detached
source: the destination is detached and stays detached. -/
theorem moveAssignTrackable_g {s : State} {w x y : Nat} (hxy : x ≠ y)
    (hbx : s.backref x = some w) (h2x : x ∈ s.coll w) (hby : s.backref y = none) :
    moveAssignTrackable x y s =
      some (detachState w x { s with payload := setPayload s.payload x (s.payload y) }) := by
  have hbx0 : ({ s with payload := setPayload s.payload x (s.payload y) } : State).backref x
      = some w := hbx
  have h2x0 : x ∈ ({ s with payload := setPayload s.payload x (s.payload y) } : State).coll w :=
    h2x
  have hdet1 := trackable_detach_hit hbx0 h2x0
  have hby1 : (detachState w x
      { s with payload := setPayload s.payload x (s.payload y) }).backref y = none := by
    rw [detachState_backref_other _ _ _ (Ne.symm hxy)]
    exact hby
  simp [moveAssignTrackable, hxy, hdet1, hby1, trackable_detach_noop hby1]

/-! Preservation of `WF` by each composite public operation. -/

theorem WF_detach_op {s : State} {t : Nat} {p : Option Nat} {b : Bool} {s' : State}
    (h : WF s) (hp : detach t p s = some (b, s')) : WF s' := by
  cases p with
  | none =>
    rw [detach_null] at hp
    simp only [Option.some.injEq, Prod.mk.injEq] at hp
    obtain ⟨-, hs⟩ := hp
    subst hs
    exact h
  | some x =>
    by_cases hb : s.backref x = some t
    · by_cases hm : x ∈ s.coll t
      · rw [detach_hit hb hm] at hp
        simp only [Option.some.injEq, Prod.mk.injEq] at hp
        obtain ⟨-, hs⟩ := hp
        subst hs
        exact WF_detachState h hb
      · have hnone : detach t (some x) s = none := by
          simp [detach, is_detached, is_attached, hb, disconnect, hm]
        rw [hnone] at hp
        cases hp
    · rw [detach_noop hb] at hp
      simp only [Option.some.injEq, Prod.mk.injEq] at hp
      obtain ⟨-, hs⟩ := hp
      subst hs
      exact h

theorem WF_trackable_detach_op {s : State} {x : Nat} {b : Bool} {s' : State}
    (h : WF s) (hp : trackable_detach x s = some (b, s')) :
    WF s' ∧ s'.backref x = none := by
  cases hbx : s.backref x with
  | none =>
    rw [trackable_detach_noop hbx] at hp
    simp only [Option.some.injEq, Prod.mk.injEq] at hp
    obtain ⟨-, hs⟩ := hp
    subst hs
    exact ⟨h, hbx⟩
  | some t =>
    have hm : x ∈ s.coll t := h.back_mem x t hbx
    rw [trackable_detach_hit hbx hm] at hp
    simp only [Option.some.injEq, Prod.mk.injEq] at hp
    obtain ⟨-, hs⟩ := hp
    subst hs
    exact ⟨WF_detachState h hbx, detachState_backref_same _ _ _⟩

theorem WF_attach_op {s : State} {t : Nat} {p : Option Nat} {b : Bool} {s' : State}
    (h : WF s) (ht : t ∈ s.trackers) (hpt : ∀ x, p = some x → x ∈ s.trackables)
    (hp : attach t p s = some (b, s')) : WF s' := by
  cases p with
  | none =>
    rw [attach_null] at hp
    simp only [Option.some.injEq, Prod.mk.injEq] at hp
    obtain ⟨-, hs⟩ := hp
    subst hs
    exact h
  | some x =>
    have hx := hpt x rfl
    by_cases hbt : s.backref x = some t
    · rw [attach_self hbt] at hp
      simp only [Option.some.injEq, Prod.mk.injEq] at hp
      obtain ⟨-, hs⟩ := hp
      subst hs
      exact h
    · cases hbu : s.backref x with
      | none =>
        rw [attach_detached hbu] at hp
        simp only [Option.some.injEq, Prod.mk.injEq] at hp
        obtain ⟨-, hs⟩ := hp
        subst hs
        exact WF_fireHook (WF_connectState h ht hx hbu) _ _ _
      | some u =>
        have hut : u ≠ t := fun he => hbt (he ▸ hbu)
        have hm : x ∈ s.coll u := h.back_mem x u hbu
        rw [attach_other hbu hut hm] at hp
        simp only [Option.some.injEq, Prod.mk.injEq] at hp
        obtain ⟨-, hs⟩ := hp
        subst hs
        have h1 : WF (detachState u x s) := WF_detachState h hbu
        have h2 : WF (connectState t x (detachState u x s)) :=
          WF_connectState h1 ht hx (detachState_backref_same _ _ _)
        exact WF_fireHook h2 _ _ _

theorem WF_make_op {s : State} {t v x : Nat} {s' : State} (h : WF s)
    (ht : t ∈ s.trackers) (hp : make t v s = some (x, s')) : WF s' := by
  rw [make_eq] at hp
  simp only [Option.some.injEq, Prod.mk.injEq] at hp
  obtain ⟨-, hs⟩ := hp
  subst hs
  have h0 := WF_freshTrackableState h v
  have h1 : WF (connectState t s.nextTrackable (freshTrackableState v s)) := by
    refine WF_connectState h0 ht ?_ ?_
    · show s.nextTrackable ∈ s.trackables ++ [s.nextTrackable]
      simp
    · simp [freshTrackableState, setBackref_same]
  exact WF_fireHook h1 _ _ _

theorem WF_copyTrackable_op {s : State} {rhs x : Nat} {s' : State} (h : WF s)
    (hp : copyTrackable rhs s = some (x, s')) : WF s' := by
  cases hbr : s.backref rhs with
  | none =>
    rw [copyTrackable_detached hbr] at hp
    simp only [Option.some.injEq, Prod.mk.injEq] at hp
    obtain ⟨-, hs⟩ := hp
    subst hs
    exact WF_freshTrackableState h _
  | some t =>
    rw [copyTrackable_attached hbr] at hp
    simp only [Option.some.injEq, Prod.mk.injEq] at hp
    obtain ⟨-, hs⟩ := hp
    subst hs
    have ht := h.back_live rhs t hbr
    have h0 := WF_freshTrackableState h (s.payload rhs)
    have h1 : WF (connectState t s.nextTrackable (freshTrackableState (s.payload rhs) s)) := by
      refine WF_connectState h0 ht ?_ ?_
      · show s.nextTrackable ∈ s.trackables ++ [s.nextTrackable]
        simp
      · simp [freshTrackableState, setBackref_same]
    exact WF_fireHook h1 _ _ _

theorem WF_copyAssign_op {s : State} {x y : Nat} {s' : State} (h : WF s)
    (hx : x ∈ s.trackables) (hp : copyAssignTrackable x y s = some s') : WF s' := by
  by_cases hxy : x = y
  · rw [show copyAssignTrackable x y s = some s from by simp [copyAssignTrackable, hxy]] at hp
    simp only [Option.some.injEq] at hp
    subst hp
    exact h
  · by_cases heq : s.backref x = s.backref y
    · rw [copyAssignTrackable_same hxy heq] at hp
      simp only [Option.some.injEq] at hp
      subst hp
      exact WF_payload h _
    · cases hbx : s.backref x with
      | none =>
        cases hby : s.backref y with
        | none => exact absurd (hbx.trans hby.symm) heq
        | some t =>
          rw [copyAssignTrackable_e hxy hbx hby] at hp
          simp only [Option.some.injEq] at hp
          subst hp
          have hP := WF_payload h (setPayload s.payload x (s.payload y))
          have ht : t ∈ s.trackers := h.back_live y t hby
          exact WF_fireHook (WF_connectState hP ht hx hbx) _ _ _
      | some w =>
        have hm : x ∈ s.coll w := h.back_mem x w hbx
        cases hby : s.backref y with
        | none =>
          rw [copyAssignTrackable_g hxy hbx hm hby] at hp
          simp only [Option.some.injEq] at hp
          subst hp
          exact WF_detachState (WF_payload h _) hbx
        | some t =>
          have hwt : w ≠ t := by
            intro he
            rw [hbx, hby, he] at heq
            exact heq rfl
          rw [copyAssignTrackable_f hxy hbx hwt hm hby] at hp
          simp only [Option.some.injEq] at hp
          subst hp
          have hP := WF_payload h (setPayload s.payload x (s.payload y))
          have h1 : WF (detachState w x
              { s with payload := setPayload s.payload x (s.payload y) }) :=
            WF_detachState hP hbx
          have ht : t ∈ s.trackers := h.back_live y t hby
          have h2 := WF_connectState h1 ht hx (detachState_backref_same _ _ _)
          exact WF_fireHook h2 _ _ _

theorem WF_moveTrackable_op {s : State} {rhs x : Nat} {s' : State} (h : WF s)
    (hp : moveTrackable rhs s = some (x, s')) : WF s' := by
  cases hbr : s.backref rhs with
  | none =>
    rw [moveTrackable_detached hbr] at hp
    simp only [Option.some.injEq, Prod.mk.injEq] at hp
    obtain ⟨-, hs⟩ := hp
    subst hs
    exact WF_freshTrackableState h _
  | some t =>
    have hlive : rhs ∈ s.trackables := by
      by_contra hc
      rw [h.dead_back rhs hc] at hbr
      cases hbr
    have hrnt : rhs ≠ s.nextTrackable := Nat.ne_of_lt (h.tb_lt rhs hlive)
    have hm : rhs ∈ s.coll t := h.back_mem rhs t hbr
    rw [moveTrackable_attached hbr hm hrnt] at hp
    simp only [Option.some.injEq, Prod.mk.injEq] at hp
    obtain ⟨-, hs⟩ := hp
    subst hs
    have h0 := WF_freshTrackableState h (s.payload rhs)
    have hbf : (freshTrackableState (s.payload rhs) s).backref rhs = some t := by
      simp [freshTrackableState, setBackref_other _ _ _ hrnt, hbr]
    have h1 := WF_detachState h0 hbf
    have ht : t ∈ s.trackers := h.back_live rhs t hbr
    have hxm : s.nextTrackable ∈ (freshTrackableState (s.payload rhs) s).trackables := by
      simp [freshTrackableState]
    have hbn : (detachState t rhs (freshTrackableState (s.payload rhs) s)).backref
        s.nextTrackable = none := by
      rw [detachState_backref_other _ _ _ (Ne.symm hrnt)]
      simp [freshTrackableState, setBackref_same]
    have h2 := WF_connectState h1 ht hxm hbn
    exact WF_fireHook h2 _ _ _

theorem WF_moveAssign_op {s : State} {x y : Nat} {s' : State} (h : WF s)
    (hx : x ∈ s.trackables) (hp : moveAssignTrackable x y s = some s') : WF s' := by
  by_cases hxy : x = y
  · rw [show moveAssignTrackable x y s = none from by simp [moveAssignTrackable, hxy]] at hp
    cases hp
  · cases hbx : s.backref x with
    | none =>
      cases hby : s.backref y with
      | none =>
        rw [moveAssignTrackable_idle hxy hbx hby] at hp
        simp only [Option.some.injEq] at hp
        subst hp
        exact WF_payload h _
      | some t =>
        have hm : y ∈ s.coll t := h.back_mem y t hby
        rw [moveAssignTrackable_d1 hxy hbx hby hm] at hp
        simp only [Option.some.injEq] at hp
        subst hp
        have hP := WF_payload h (setPayload s.payload x (s.payload y))
        have h1 : WF (detachState t y
            { s with payload := setPayload s.payload x (s.payload y) }) :=
          WF_detachState hP hby
        have ht : t ∈ s.trackers := h.back_live y t hby
        have hbn : (detachState t y
            { s with payload := setPayload s.payload x (s.payload y) }).backref x = none := by
          rw [detachState_backref_other _ _ _ hxy]
          exact hbx
        exact WF_fireHook (WF_connectState h1 ht hx hbn) _ _ _
    | some w =>
      have hmx : x ∈ s.coll w := h.back_mem x w hbx
      cases hby : s.backref y with
      | none =>
        rw [moveAssignTrackable_g hxy hbx hmx hby] at hp
        simp only [Option.some.injEq] at hp
        subst hp
        exact WF_detachState (WF_payload h _) hbx
      | some t =>
        have hP := WF_payload h (setPayload s.payload x (s.payload y))
        have hdet1 := trackable_detach_hit
          (show ({ s with payload := setPayload s.payload x (s.payload y) } : State).backref x
              = some w from hbx)
          (show x ∈ ({ s with payload := setPayload s.payload x (s.payload y) } : State).coll w
              from hmx)
        have h1 : WF (detachState w x
            { s with payload := setPayload s.payload x (s.payload y) }) :=
          WF_detachState hP hbx
        have hby1 : (detachState w x
            { s with payload := setPayload s.payload x (s.payload y) }).backref y = some t := by
          rw [detachState_backref_other _ _ _ (Ne.symm hxy)]
          exact hby
        have hmy1 : y ∈ (detachState w x
            { s with payload := setPayload s.payload x (s.payload y) }).coll t :=
          h1.back_mem y t hby1
        have hdet2 := trackable_detach_hit hby1 hmy1
        have h2 : WF (detachState t y (detachState w x
            { s with payload := setPayload s.payload x (s.payload y) })) :=
          WF_detachState h1 hby1
        have hbn : (detachState t y (detachState w x
            { s with payload := setPayload s.payload x (s.payload y) })).backref x = none := by
          rw [detachState_backref_other _ _ _ hxy]
          exact detachState_backref_same _ _ _
        have hatt := attach_detached (t := t) hbn
        have hchain : moveAssignTrackable x y s =
            some (fireHook (connectState t x (detachState t y (detachState w x
              { s with payload := setPayload s.payload x (s.payload y) }))) .didAttach t x) := by
          simp [moveAssignTrackable, hxy, hdet1, hby1, hdet2, hatt]
        rw [hchain] at hp
        simp only [Option.some.injEq] at hp
        subst hp
        have ht : t ∈ s.trackers := h.back_live y t hby
        exact WF_fireHook (WF_connectState h2 ht hx hbn) _ _ _

theorem WF_destroyTrackable_op {s : State} {x : Nat} {s' : State} (h : WF s)
    (hp : destroyTrackable x s = some s') : WF s' := by
  cases hq : trackable_detach x s with
  | none =>
    rw [show destroyTrackable x s = none from by simp [destroyTrackable, hq]] at hp
    cases hp
  | some p =>
    obtain ⟨b, s1⟩ := p
    obtain ⟨h1, hbx⟩ := WF_trackable_detach_op h hq
    rw [show destroyTrackable x s = some { s1 with trackables := s1.trackables.erase x }
        from by simp [destroyTrackable, hq]] at hp
    simp only [Option.some.injEq] at hp
    subst hp
    exact WF_erase_trackable h1 hbx

theorem WF_moveTracker_op {s : State} {rhs : Nat} (h : WF s) (hrhs : rhs ∈ s.trackers) :
    WF (moveTracker rhs s).2 := by
  have h0 : WF (newTracker s).2 := WF_newTracker h
  have hne : s.nextTracker ≠ rhs := fun he => h.fresh_tr (he ▸ hrhs)
  show WF (transferState s.nextTracker rhs (newTracker s).2)
  refine WF_transferState h0 ?_ ?_ hne ?_
  · show s.nextTracker ∈ s.trackers ++ [s.nextTracker]
    simp
  · show rhs ∈ s.trackers ++ [s.nextTracker]
    exact List.mem_append_left _ hrhs
  · exact setColl_same _ _ _

theorem WF_moveAssignTracker_op {s : State} {t rhs : Nat} {s' : State} (h : WF s)
    (ht : t ∈ s.trackers) (hrhs : rhs ∈ s.trackers)
    (hp : moveAssignTracker t rhs s = some s') : WF s' := by
  by_cases htr : t = rhs
  · rw [show moveAssignTracker t rhs s = none from by simp [moveAssignTracker, htr]] at hp
    cases hp
  · rw [show moveAssignTracker t rhs s = some (transferState t rhs (detach_all t s))
        from by simp [moveAssignTracker, htr]] at hp
    simp only [Option.some.injEq] at hp
    subst hp
    have h1 := WF_detach_all h t
    refine WF_transferState h1 ?_ ?_ htr ?_
    · rw [detach_all_trackers]
      exact ht
    · rw [detach_all_trackers]
      exact hrhs
    · rw [detach_all_coll_apply s t t, if_pos rfl]

/-- One invocation of a public API operation on valid (live) objects:
tracker and trackable construction, `make`, `attach`, `detach` (both the
tracker member and the trackable's self-detach), `detach_all`, the copy and
move special member functions of `trackable`, the move operations of
`tracker`, and both destructors. -/
inductive Step : State → State → Prop where
  | ofNewTracker (s : State) : Step s (newTracker s).2
  | ofNewTrackable (s : State) (v : Nat) : Step s (newTrackable v s).2
  | ofMake (s : State) (t v x : Nat) (s' : State) :
      t ∈ s.trackers → make t v s = some (x, s') → Step s s'
  | ofAttach (s : State) (t : Nat) (p : Option Nat) (b : Bool) (s' : State) :
      t ∈ s.trackers → (∀ x, p = some x → x ∈ s.trackables) →
      attach t p s = some (b, s') → Step s s'
  | ofDetach (s : State) (t : Nat) (p : Option Nat) (b : Bool) (s' : State) :
      t ∈ s.trackers → (∀ x, p = some x → x ∈ s.trackables) →
      detach t p s = some (b, s') → Step s s'
  | ofSelfDetach (s : State) (x : Nat) (b : Bool) (s' : State) :
      x ∈ s.trackables → trackable_detach x s = some (b, s') → Step s s'
  | ofDetachAll (s : State) (t : Nat) : t ∈ s.trackers → Step s (detach_all t s)
  | ofCopyCtor (s : State) (y x : Nat) (s' : State) :
      y ∈ s.trackables → copyTrackable y s = some (x, s') → Step s s'
  | ofCopyAssign (s : State) (x y : Nat) (s' : State) :
      x ∈ s.trackables → y ∈ s.trackables →
      copyAssignTrackable x y s = some s' → Step s s'
  | ofMoveCtor (s : State) (y x : Nat) (s' : State) :
      y ∈ s.trackables → moveTrackable y s = some (x, s') → Step s s'
  | ofMoveAssign (s : State) (x y : Nat) (s' : State) :
      x ∈ s.trackables → y ∈ s.trackables →
      moveAssignTrackable x y s = some s' → Step s s'
  | ofDestroyTrackable (s : State) (x : Nat) (s' : State) :
      x ∈ s.trackables → destroyTrackable x s = some s' → Step s s'
  | ofMoveTrackerCtor (s : State) (rhs : Nat) :
      rhs ∈ s.trackers → Step s (moveTracker rhs s).2
  | ofMoveTrackerAssign (s : State) (t rhs : Nat) (s' : State) :
      t ∈ s.trackers → rhs ∈ s.trackers →
      moveAssignTracker t rhs s = some s' → Step s s'
  | ofDestroyTracker (s : State) (t : Nat) :
      t ∈ s.trackers → Step s (destroyTracker t s)

/-- A state is reachable when it is produced from the empty initial heap by a
finite sequence of public API operations. -/
def Reachable (s : State) : Prop :=
  Relation.ReflTransGen Step initState s

theorem WF_step {s s' : State} (h : WF s) (hst : Step s s') : WF s' := by
  cases hst with
  | ofNewTracker => exact WF_newTracker h
  | ofNewTrackable v => exact WF_freshTrackableState h v
  | ofMake t v x s' ht hp => exact WF_make_op h ht hp
  | ofAttach t p b s' ht hpt hp => exact WF_attach_op h ht hpt hp
  | ofDetach t p b s' ht hpt hp => exact WF_detach_op h hp
  | ofSelfDetach x b s' hx hp => exact (WF_trackable_detach_op h hp).1
  | ofDetachAll t ht => exact WF_detach_all h t
  | ofCopyCtor y x s' hy hp => exact WF_copyTrackable_op h hp
  | ofCopyAssign x y s' hx hy hp => exact WF_copyAssign_op h hx hp
  | ofMoveCtor y x s' hy hp => exact WF_moveTrackable_op h hp
  | ofMoveAssign x y s' hx hy hp => exact WF_moveAssign_op h hx hp
  | ofDestroyTrackable x s' hx hp => exact WF_destroyTrackable_op h hp
  | ofMoveTrackerCtor rhs hrhs => exact WF_moveTracker_op h hrhs
  | ofMoveTrackerAssign t rhs s' ht hrhs hp => exact WF_moveAssignTracker_op h ht hrhs hp
  | ofDestroyTracker t ht => exact WF_destroyTracker h t

theorem reachable_WF {s : State} (h : Reachable s) : WF s := by
  induction h with
  | refl => exact WF_initState
  | tail _ hstep ih => exact WF_step ih hstep

/-- The one-to-one membership invariant exactly as the specification states
it: every reference in a live tracker's collection points to a live trackable
whose back-reference equals that tracker and which appears in the collection
exactly once; conversely, every live trackable with a non-empty
back-reference points to a live tracker whose collection contains it. -/
def OneToOne (s : State) : Prop :=
  (∀ t ∈ s.trackers, ∀ x ∈ s.coll t,
     x ∈ s.trackables ∧ s.backref x = some t ∧ (s.coll t).count x = 1)
  ∧ (∀ x ∈ s.trackables, ∀ t, s.backref x = some t → t ∈ s.trackers ∧ x ∈ s.coll t)

theorem OneToOne_of_WF {s : State} (h : WF s) : OneToOne s := by
  constructor
  · intro t _ x hx
    exact ⟨h.mem_live hx, h.mem_back t x hx,
           List.count_eq_one_of_mem (h.coll_nodup t) hx⟩
  · intro x _ t hb
    exact ⟨h.back_live x t hb, h.back_mem x t hb⟩

/-- C1: in every state reachable through the public API (construction, `make`,
`attach`, `detach`, `detach_all`, copy, move, destruction), every reference
stored in a tracker's collection points to a live trackable whose
back-reference equals that tracker and appears in the collection exactly
once, and conversely every trackable whose back-reference is non-empty points
to a tracker whose collection currently contains it. -/
theorem claim_C1_one_to_one (s : State) (h : Reachable s) : OneToOne s :=
  OneToOne_of_WF (reachable_WF h)

/-- Witness for C1: the state obtained by constructing one tracker from the
empty initial heap is reachable, and the one-to-one invariant holds in it. -/
theorem claim_C1_one_to_one_witness :
    Reachable (newTracker initState).2 ∧ OneToOne (newTracker initState).2 :=
  have h : Reachable (newTracker initState).2 :=
    Relation.ReflTransGen.single (Step.ofNewTracker initState)
  ⟨h, claim_C1_one_to_one _ h⟩

end Tracker
